import Mathlib

/-!
Shallow embedding of the claim validation & scoring engine of the
GR_Insurance_Agent repository (src/unnamed/part_003).

Texts are Lean `String`s (JS strings), JS numbers are `ℚ` where the source
only does rational arithmetic and comparisons, and `ℝ` where the source uses
`Math.sqrt` / `Math.log10` or mixes with such values (embeddings, cosine
similarity, blended scores).  Nullable JS values are `Option`s, and code that
can throw is modelled with `Except`.  Human-readable message strings are kept,
except that locale number formatting (`toLocaleString('en-IN')`) is abstracted
by `formatINR`; no theorem below inspects a formatted number.
-/

open Classical

/-! ## Basic string / character utilities (JS semantics) -/

/-- JS whitespace test, restricted to the ASCII whitespace actually occurring
in the repository's inputs. -/
def jsIsSpace (c : Char) : Bool := c.isWhitespace

/-- JS `\w` character class: `[A-Za-z0-9_]`. -/
def isWordChar (c : Char) : Bool := c.isAlphanum || c == '_'

/-- JS `String.prototype.toLowerCase` (ASCII range). -/
def jsToLower (s : String) : String := String.mk (s.toList.map Char.toLower)

/-- Substring containment on character lists. -/
def containsSub (needle : List Char) : List Char → Bool
  | [] => needle.isEmpty
  | c :: rest => needle.isPrefixOf (c :: rest) || containsSub needle rest

/-- JS `haystack.includes(needle)` (substring containment). -/
def jsIncludes (haystack needle : String) : Bool :=
  containsSub needle.toList haystack.toList

/-- JS `String.prototype.trim` on a character list. -/
def trimList (l : List Char) : List Char :=
  ((l.dropWhile jsIsSpace).reverse.dropWhile jsIsSpace).reverse

/-- Case-insensitive character equality (ASCII). -/
def ciEq (a b : Char) : Bool := a.toLower == b.toLower

/-- Case-insensitive "the pattern is a prefix of the text". -/
def ciStartsWith : List Char → List Char → Bool
  | [], _ => true
  | _ :: _, [] => false
  | p :: ps, c :: cs => ciEq p c && ciStartsWith ps cs

/-- `true` when an optional neighbouring character is absent or not a word
character; used for JS `\b` boundaries next to a word character. -/
def notWord : Option Char → Bool
  | none => true
  | some c => !isWordChar c

/-- `true` when an optional neighbouring character is present and is a word
character; used for JS `\b` boundaries next to a non-word character. -/
def isWordOpt : Option Char → Bool
  | none => false
  | some c => isWordChar c

/-- Digit value of an ASCII digit character. -/
def digitVal (c : Char) : ℕ := c.toNat - '0'.toNat

/-- Numeric value of a run of ASCII digits. -/
def digitsToNat (ds : List Char) : ℕ := ds.foldl (fun n c => 10 * n + digitVal c) 0

/-- JS `parseFloat` restricted to the normalized numeric strings produced by
the currency pipeline: digits with at most one decimal point.  `none` models
`NaN` (no digits at all, as in `parseFloat("")` or `parseFloat(".")`). -/
def parseDecimal (s : List Char) : Option ℚ :=
  let intDs := s.takeWhile Char.isDigit
  let rest := s.drop intDs.length
  match rest with
  | '.' :: frac =>
      let fracDs := frac.takeWhile Char.isDigit
      if intDs = [] ∧ fracDs = [] then none
      else some ((digitsToNat intDs : ℚ) + (digitsToNat fracDs : ℚ) / (10 ^ fracDs.length : ℚ))
  | _ => if intDs = [] then none else some (digitsToNat intDs : ℚ)

/-- Placeholder for `amount.toLocaleString('en-IN')`: locale digit grouping is
irrelevant to every property proved below, so the plain `ℚ` representation is
used inside message strings. -/
def formatINR (q : ℚ) : String := toString q

/-! ## Decision step of `runEnhancedClaimProcess` (part_003 lines 4134-4155) -/

/-- The decision step: count the six validation booleans
(`withinSumInsured`, `conditionCovered`, `conditionNotExcluded`,
`pricingMatches`, `hospitalInNetwork`, `policyActive`) that passed and map the
count to a decision string.  There is no special-casing of `policyActive`. -/
def claimDecision (withinSumInsured conditionCovered conditionNotExcluded
    pricingMatches hospitalInNetwork policyActive : Bool) : String :=
  let passedValidations :=
    ([withinSumInsured, conditionCovered, conditionNotExcluded,
      pricingMatches, hospitalInNetwork, policyActive].filter (fun check => check)).length
  if passedValidations = 6 then "APPROVED"
  else if passedValidations ≥ 4 then "NEEDS_REVIEW"
  else "REJECTED"

/-! ## `fetchPolicyFromDB` (part_003 lines 1882-1924) -/

/-- A stored policy row as returned by the `insurance_policies` query. -/
structure StoredPolicy where
  email : String
  company_name : String
  policy_name : String
  purchase_year : ℕ
  policy_text : String
  sum_insured : ℚ
  is_active : Bool
deriving DecidableEq

/-- Policy details handed to the validation pipeline. -/
structure PolicyDetails where
  email : String
  companyName : String
  policyName : String
  purchaseYear : ℕ
  sumInsured : ℚ
  isActive : Bool
  policyText : String
deriving DecidableEq

/-- `fetchPolicyFromDB`: the database query result is a parameter; an inactive
policy makes the function throw (after sending an expiry email, which is
outside this model), so an inactive policy never reaches the six-check
decision of `runEnhancedClaimProcess`. -/
def fetchPolicyFromDB (queryResult : Option StoredPolicy) (email : String) :
    Except String PolicyDetails :=
  match queryResult with
  | none => .error ("No insurance policy found for email: " ++ email)
  | some policy =>
      if !policy.is_active then
        .error "Your insurance policy has been expired. Claim rejected."
      else
        .ok { email := policy.email, companyName := policy.company_name,
              policyName := policy.policy_name, purchaseYear := policy.purchase_year,
              sumInsured := policy.sum_insured, isActive := policy.is_active,
              policyText := policy.policy_text }

/-! ## Cosine similarity (part_003 lines 3092-3116) -/

/-- One step of the accumulation loop of `calculateCosineSimilarity`:
`(dotProduct, norm1, norm2)` updated with one coordinate pair. -/
noncomputable def cosineStep (acc : ℝ × ℝ × ℝ) (xy : ℝ × ℝ) : ℝ × ℝ × ℝ :=
  (acc.1 + xy.1 * xy.2, acc.2.1 + xy.1 * xy.1, acc.2.2 + xy.2 * xy.2)

/-- The `for` loop of `calculateCosineSimilarity`, accumulating the dot product
and the two squared norms in one pass (the loop reads `vector2[i]` for indices
of `vector1`; it is only ever entered with equal lengths). -/
noncomputable def cosineLoop (v1 v2 : List ℝ) : ℝ × ℝ × ℝ :=
  (v1.zip v2).foldl cosineStep (0, 0, 0)

/-- `calculateCosineSimilarity(vector1, vector2)`: `none` models a null /
missing argument (a JS array, even empty, is truthy).  In the loop result,
`.1` is `dotProduct` and `.2.1` / `.2.2` are the squared norms whose roots are
`norm1` / `norm2`. -/
noncomputable def calculateCosineSimilarity (vector1 vector2 : Option (List ℝ)) : ℝ :=
  match vector1, vector2 with
  | some v1, some v2 =>
      if v1.length ≠ v2.length then 0
      else if Real.sqrt (cosineLoop v1 v2).2.1 = 0 ∨ Real.sqrt (cosineLoop v1 v2).2.2 = 0 then 0
      else
        (cosineLoop v1 v2).1 /
          (Real.sqrt (cosineLoop v1 v2).2.1 * Real.sqrt (cosineLoop v1 v2).2.2)
  | _, _ => 0

/-- Mathematical dot product of two real lists (truncating at the shorter). -/
noncomputable def dotp (a b : List ℝ) : ℝ := ((a.zip b).map (fun p => p.1 * p.2)).sum

/-- Euclidean norm of a real list. -/
noncomputable def vnorm (a : List ℝ) : ℝ := Real.sqrt (dotp a a)

/-- Cosine similarity as the specification states it: exactly 0 when either
argument is null/missing, when the lengths differ, or when either vector has
zero norm; otherwise `dot(a,b) / (‖a‖·‖b‖)`. -/
noncomputable def cosineSimilaritySpec (vector1 vector2 : Option (List ℝ)) : ℝ :=
  match vector1, vector2 with
  | some a, some b =>
      if a.length ≠ b.length then 0
      else if vnorm a = 0 ∨ vnorm b = 0 then 0
      else dotp a b / (vnorm a * vnorm b)
  | _, _ => 0

/-! ## Exclusion analysis (part_003 lines 2770-2880) -/

/-- One static exclusion category. -/
structure ExclusionCategory where
  name : String
  keywords : List String
  weight : ℚ
  reason : String
deriving DecidableEq

/-- The six exclusion categories of `checkConditionExclusions`. -/
def exclusionCategories : List ExclusionCategory :=
  [ { name := "cosmetic",
      keywords := ["cosmetic", "plastic surgery", "aesthetic", "beauty", "liposuction", "botox"],
      weight := 0.9,
      reason := "Cosmetic procedures are typically excluded from health insurance" },
    { name := "dental",
      keywords := ["dental", "tooth", "teeth", "orthodontic", "braces", "oral surgery"],
      weight := 0.8,
      reason := "Dental treatments usually require separate dental insurance" },
    { name := "vision",
      keywords := ["vision", "eye", "optical", "glasses", "contact lens", "lasik"],
      weight := 0.8,
      reason := "Vision care often requires separate vision insurance" },
    { name := "experimental",
      keywords := ["experimental", "investigational", "clinical trial", "unapproved"],
      weight := 0.9,
      reason := "Experimental treatments are excluded from standard coverage" },
    { name := "preexisting",
      keywords := ["pre-existing", "chronic", "congenital", "hereditary", "genetic"],
      weight := 0.7,
      reason := "Pre-existing conditions may have waiting periods or exclusions" },
    { name := "elective",
      keywords := ["elective", "non-emergency", "planned", "routine"],
      weight := 0.6,
      reason := "Elective procedures may have different coverage rules" } ]

/-- Emergency override token list of `checkConditionExclusions`. -/
def emergencyKeywords : List String :=
  ["emergency", "trauma", "accident", "acute", "critical", "life-threatening"]

/-- One entry of `analysis.details`. -/
structure ExclusionDetail where
  category : String
  keywords : List String
  score : ℚ
  reason : String
deriving DecidableEq

/-- Result record of `checkConditionExclusions`. -/
structure ExclusionAnalysis where
  isExcluded : Bool
  confidence : ℝ
  reason : String
  details : List ExclusionDetail

/-- One step of the keyword pass of `checkConditionExclusions`: update the
accumulated `analysis.details`, the highest category score, and the category
that produced it with one exclusion category. -/
def exclusionScanStep (normalizedText : String)
    (acc : List ExclusionDetail × ℚ × Option String) (data : ExclusionCategory) :
    List ExclusionDetail × ℚ × Option String :=
  let matchingKeywords := data.keywords.filter (fun keyword => jsIncludes normalizedText keyword)
  if matchingKeywords.length > 0 then
    let categoryScore : ℚ :=
      ((matchingKeywords.length : ℚ) / (data.keywords.length : ℚ)) * data.weight
    let details := acc.1 ++ [⟨data.name, matchingKeywords, categoryScore, data.reason⟩]
    if categoryScore > acc.2.1 then (details, categoryScore, some data.name)
    else (details, acc.2.1, acc.2.2)
  else acc

/-- Keyword pass of `checkConditionExclusions` (lines 2823-2840). -/
def exclusionKeywordScan (normalizedText : String) :
    List ExclusionDetail × ℚ × Option String :=
  exclusionCategories.foldl (exclusionScanStep normalizedText) ([], 0, none)

/-- Reason string looked up from `exclusionCategories[excludingCategory]`. -/
def exclusionReasonOf (category : Option String) : String :=
  match category with
  | some c =>
      match exclusionCategories.find? (fun e => e.name == c) with
      | some e => e.reason
      | none => ""
  | none => "Condition has high similarity to excluded conditions"

/-- `checkConditionExclusions(conditionText, conditionsEmbedding,
excludedConditionsEmbedding)`.  The keyword scan runs first, then the vector
similarity, then the emergency override (which returns early with the details
collected so far), then the threshold combination. -/
noncomputable def checkConditionExclusions (conditionText : String)
    (conditionsEmbedding excludedConditionsEmbedding : Option (List ℝ)) :
    ExclusionAnalysis :=
  if conditionText = "" then
    { isExcluded := false, confidence := 0,
      reason := "No condition text provided for exclusion check", details := [] }
  else
    let normalizedText := jsToLower conditionText
    let scan := exclusionKeywordScan normalizedText
    let highestExclusionScore : ℚ := scan.2.1
    let excludingCategory : Option String := scan.2.2
    let vectorExclusionScore :=
      calculateCosineSimilarity conditionsEmbedding excludedConditionsEmbedding
    let isEmergency := emergencyKeywords.any (fun keyword => jsIncludes normalizedText keyword)
    if isEmergency then
      { isExcluded := false, confidence := 0.9,
        reason := "Emergency medical conditions are covered regardless of other factors",
        details := scan.1 }
    else
      let combinedScore : ℝ := max (highestExclusionScore : ℝ) (vectorExclusionScore * 0.8)
      if combinedScore > 0.7 then
        { isExcluded := true, confidence := combinedScore,
          reason := exclusionReasonOf excludingCategory, details := scan.1 }
      else
        { isExcluded := false, confidence := 1 - combinedScore,
          reason :=
            if combinedScore > 0.4 then
              "Condition has some similarity to exclusions but within acceptable range"
            else "Condition does not match common exclusion patterns",
          details := scan.1 }

/-! ## Medical terminology extraction (part_003 lines 2686-2768) -/

/-- One taxonomy category of `getMedicalTerminologyDatabase`. -/
structure MedCategoryData where
  name : String
  keywords : List String
  conditions : List String
  procedures : List String
  icd10 : List String
deriving DecidableEq

/-- `getMedicalTerminologyDatabase()` (the `icd10` lists are never read by the
matching code). -/
def medicalTerminologyDatabase : List MedCategoryData :=
  [ { name := "neurological",
      keywords := ["brain", "head", "neuro", "cranial", "cerebral", "neural", "cognitive", "neurological"],
      conditions := ["traumatic brain injury", "stroke", "aneurysm", "hemorrhage", "concussion", "brain tumor", "epilepsy", "meningitis"],
      procedures := ["craniotomy", "craniectomy", "neurosurgery", "brain surgery", "burr hole", "ventriculostomy"],
      icd10 := ["S06", "I60-I69", "C71", "G93"] },
    { name := "cardiac",
      keywords := ["heart", "cardiac", "cardio", "coronary", "myocardial", "cardiovascular"],
      conditions := ["heart attack", "coronary artery disease", "heart failure", "arrhythmia", "angina"],
      procedures := ["bypass", "angioplasty", "stent", "catheterization", "pacemaker"],
      icd10 := ["I20-I25", "I30-I52", "I60-I69"] },
    { name := "orthopedic",
      keywords := ["bone", "joint", "fracture", "orthopedic", "musculoskeletal", "spine", "spinal"],
      conditions := ["fracture", "dislocation", "arthritis", "osteoporosis", "spinal injury"],
      procedures := ["surgery", "fixation", "replacement", "fusion", "arthroscopy"],
      icd10 := ["S72", "S82", "M25", "M80-M85"] },
    { name := "general",
      keywords := ["surgery", "trauma", "injury", "disease", "disorder", "syndrome", "infection",
                   "emergency", "intensive", "icu", "operation", "transplant", "biopsy", "scan",
                   "mri", "ct", "x-ray", "ultrasound", "therapy", "rehabilitation", "physiotherapy",
                   "anesthesia", "ventilator", "blood", "pathology", "diagnostic", "treatment"],
      conditions := ["acute", "chronic", "severe", "moderate", "mild", "critical", "stable"],
      procedures := ["consultation", "examination", "monitoring", "care", "management"],
      icd10 := ["Z51", "Z00-Z13"] } ]

/-- One entry of the `categories` list built by `extractMedicalTerms`. -/
structure CategoryMatch where
  category : String
  matchedKeywords : List String
  matchedConditions : List String
  matchedProcedures : List String
  count : ℕ
  relevance : ℚ
deriving DecidableEq

/-- Result record of `extractMedicalTerms`. -/
structure MedicalAnalysis where
  terms : List String
  categories : List CategoryMatch
  confidence : ℚ
  totalMatches : ℕ
deriving DecidableEq

/-- Stable insertion (strictly-greater relevance goes in front) used to model
the stable JS `sort((a, b) => b.relevance - a.relevance)`. -/
def insertByRelevance (x : CategoryMatch) : List CategoryMatch → List CategoryMatch
  | [] => [x]
  | y :: ys => if x.relevance > y.relevance then x :: y :: ys else y :: insertByRelevance x ys

/-- Stable descending sort by relevance. -/
def sortByRelevanceDesc (l : List CategoryMatch) : List CategoryMatch :=
  l.foldr insertByRelevance []

/-- Remove later duplicates keeping first occurrences (`[...new Set(xs)]`). -/
def dedupKeepFirst : List String → List String
  | [] => []
  | x :: xs => x :: dedupKeepFirst (xs.filter (fun y => y ≠ x))
termination_by l => l.length
decreasing_by
  simp only [List.length_cons]
  exact Nat.lt_succ_of_le (List.length_filter_le _ _)

/-- One step of the category scan of `extractMedicalTerms`: accumulate found
terms, the category match records, and the total match count. -/
def medTermScanStep (normalizedText : String)
    (acc : List String × List CategoryMatch × ℕ) (data : MedCategoryData) :
    List String × List CategoryMatch × ℕ :=
  let kws := data.keywords.filter (fun term => jsIncludes normalizedText term)
  let conds := data.conditions.filter (fun term => jsIncludes normalizedText term)
  let procs := data.procedures.filter (fun term => jsIncludes normalizedText term)
  let matchCount := kws.length + conds.length + procs.length
  if matchCount > 0 then
    (acc.1 ++ kws ++ conds ++ procs,
     acc.2.1 ++ [⟨data.name, kws, conds, procs, matchCount,
       (matchCount : ℚ) /
         ((data.keywords.length + data.conditions.length + data.procedures.length : ℕ) : ℚ)⟩],
     acc.2.2 + matchCount)
  else acc

/-- `extractMedicalTerms(text)` (lines 2723-2768). -/
def extractMedicalTerms (text : String) : MedicalAnalysis :=
  if text = "" then { terms := [], categories := [], confidence := 0, totalMatches := 0 }
  else
    let step := medicalTerminologyDatabase.foldl (medTermScanStep (jsToLower text)) ([], [], 0)
    let confidence : ℚ := min 1 ((step.2.2 : ℚ) * 0.1 + (step.2.1.length : ℚ) * 0.2)
    { terms := dedupKeepFirst step.1,
      categories := sortByRelevanceDesc step.2.1,
      confidence := confidence,
      totalMatches := step.2.2 }

/-! ## Coverage assessment (part_003 lines 3289-3348) -/

/-- One row of the static coverage-rule table of `assessConditionCoverage`. -/
structure CoverageRule where
  name : String
  covered : Bool
  score : ℚ
  reason : String
deriving DecidableEq

/-- The coverage-rule table. -/
def coverageRules : List CoverageRule :=
  [ { name := "neurological", covered := true, score := 0.9,
      reason := "Neurological conditions are covered under medical emergencies and specialized care" },
    { name := "cardiac", covered := true, score := 0.9,
      reason := "Cardiac conditions are covered under critical illness and emergency care" },
    { name := "orthopedic", covered := true, score := 0.85,
      reason := "Orthopedic conditions are covered under accident and injury benefits" },
    { name := "general", covered := true, score := 0.7,
      reason := "General medical conditions are covered under basic health insurance" } ]

/-- High-value procedure token list of `assessConditionCoverage`. -/
def highValueProcedures : List String :=
  ["surgery", "operation", "transplant", "emergency", "icu", "intensive care",
   "craniotomy", "bypass", "angioplasty", "catheterization"]

/-- Result of `assessConditionCoverage`. -/
structure CoverageAssessment where
  score : ℚ
  reasons : List String
  confidence : ℚ
deriving DecidableEq

/-- `assessConditionCoverage(medicalAnalysis)`. -/
def assessConditionCoverage (medicalAnalysis : MedicalAnalysis) : CoverageAssessment :=
  let step := medicalAnalysis.categories.foldl
    (fun (acc : ℚ × List String) categoryData =>
      match coverageRules.find? (fun r => r.name == categoryData.category) with
      | some rule =>
          if rule.covered then
            (max acc.1 (rule.score * categoryData.relevance),
             acc.2 ++ [categoryData.category ++ ": " ++ rule.reason])
          else acc
      | none => acc)
    (0, [])
  let hasHighValueProcedure := medicalAnalysis.terms.any
    (fun term => highValueProcedures.any (fun proc => jsIncludes term proc))
  if hasHighValueProcedure then
    { score := max step.1 0.9,
      reasons := step.2 ++ ["High-value medical procedures are typically covered"],
      confidence := medicalAnalysis.confidence }
  else
    { score := step.1, reasons := step.2, confidence := medicalAnalysis.confidence }

/-! ## Emergency regex patterns of `enhancedConditionMatching` (lines 3380-3389) -/

/-- An atom of the tiny regex fragment needed for the emergency patterns:
a (case-insensitive) literal character or the class `[\s-]`. -/
inductive RegexAtom where
  | lit (c : Char)
  | wsDash
deriving DecidableEq

/-- Atom match against one character. -/
def atomMatches : RegexAtom → Char → Bool
  | .lit p, c => ciEq p c
  | .wsDash, c => jsIsSpace c || c == '-'

/-- Literal pattern from a string. -/
def litPattern (s : String) : List RegexAtom := s.toList.map RegexAtom.lit

/-- Match a whole atom list at the head of the text, returning the rest. -/
def matchAtomList : List RegexAtom → List Char → Option (List Char)
  | [], rest => some rest
  | _ :: _, [] => none
  | a :: as, c :: cs => if atomMatches a c then matchAtomList as cs else none

/-- `\b pattern \b` occurs somewhere in the text (patterns here start and end
with word characters, so both boundaries require a non-word neighbour). -/
def wordPatternOccurs (pat : List RegexAtom) : Option Char → List Char → Bool
  | _, [] => false
  | prev, c :: rest =>
      (match matchAtomList pat (c :: rest) with
       | some after => notWord prev && notWord after.head?
       | none => false)
      || wordPatternOccurs pat (some c) rest

/-- The six emergency regexes `/\bemergency\b/i`, …, `/\blife[\s-]threatening\b/i`. -/
def emergencyPatterns : List (List RegexAtom) :=
  [ litPattern "emergency", litPattern "trauma", litPattern "accident",
    litPattern "acute", litPattern "critical",
    litPattern "life" ++ [RegexAtom.wsDash] ++ litPattern "threatening" ]

/-- `hasEmergencyPattern` of `enhancedConditionMatching`. -/
def hasEmergencyPatternIn (text : String) : Bool :=
  emergencyPatterns.any (fun pat => wordPatternOccurs pat none text.toList)

/-- `enhancedConditionMatching(conditionText, policyConditionsEmbedding)`;
`embed` models the external `generateEmbedding` collaborator. -/
noncomputable def enhancedConditionMatching (embed : String → List ℝ) (conditionText : String)
    (policyConditionsEmbedding : Option (List ℝ)) : ℝ :=
  if conditionText = "" then 0
  else
    let medicalAnalysis := extractMedicalTerms conditionText
    let coverageAssessment := assessConditionCoverage medicalAnalysis
    let vectorSimilarity :=
      calculateCosineSimilarity (some (embed conditionText)) policyConditionsEmbedding
    let emergencyBonus : ℝ := if hasEmergencyPatternIn conditionText then 0.15 else 0
    let finalScore : ℝ :=
      (coverageAssessment.score : ℝ) * 0.4 + vectorSimilarity * 0.3 +
        (medicalAnalysis.confidence : ℝ) * 0.2 + emergencyBonus
    min finalScore 1

/-! ## Hospital name normalization and matching (part_003 lines 3118-3286) -/

/-- Prefixes stripped by `normalizeHospitalName`. -/
def prefixesToRemove : List String := ["dr.", "dr ", "sri ", "shri ", "the "]

/-- Suffixes stripped by `normalizeHospitalName`. -/
def suffixesToRemove : List String :=
  [" hospital", " medical center", " healthcare", " clinic",
   " nursing home", " institute", " foundation", " trust",
   " pvt ltd", " private limited", " limited", " ltd"]

/-- Abbreviation standardization table of `normalizeHospitalName`. -/
def abbreviationPairs : List (String × String) :=
  [("multispeciality", "multi specialty"), ("speciality", "specialty"),
   ("pvt", "private"), ("ltd", "limited"), ("&", "and"), ("hosp", "hospital"),
   ("med", "medical"), ("ctr", "center"), ("inst", "institute")]

/-- Collapse whitespace runs to a single space (`replace(/\s+/g, ' ')`),
tracking whether the previous character was part of a whitespace run. -/
def collapseWsAux (prevSpace : Bool) : List Char → List Char
  | [] => []
  | c :: rest =>
      if jsIsSpace c then
        if prevSpace then collapseWsAux true rest else ' ' :: collapseWsAux true rest
      else c :: collapseWsAux false rest

/-- Collapse whitespace runs to a single space. -/
def collapseWs (l : List Char) : List Char := collapseWsAux false l

/-- Global replacement of `\b pat \b` by `rep` (the JS
`replace(new RegExp("\\b" + abbr + "\\b", "g"), full)`): a `\b` boundary holds
when exactly one of the two neighbouring positions holds a word character,
with absent neighbours counting as non-word. -/
def replaceWordAll (p : Char) (ps rep : List Char) : Option Char → List Char → List Char
  | _, [] => []
  | prev, c :: rest =>
      if (p :: ps).isPrefixOf (c :: rest) &&
          (isWordOpt prev != isWordChar p) &&
          (isWordChar (ps.getLastD p) != isWordOpt (rest.drop ps.length).head?) then
        rep ++ replaceWordAll p ps rep (some (ps.getLastD p)) (rest.drop ps.length)
      else c :: replaceWordAll p ps rep (some c) rest
termination_by _ l => l.length
decreasing_by
  · simp only [List.length_cons]
    exact Nat.lt_succ_of_le (List.length_drop _ _ ▸ Nat.sub_le _ _)
  · simp

/-- Apply one abbreviation replacement. -/
def applyAbbrev (s : List Char) (pr : String × String) : List Char :=
  match pr.1.toList with
  | [] => s
  | p :: ps => replaceWordAll p ps pr.2.toList none s

/-- `normalizeHospitalName(hospitalName)` (lines 3119-3165); `none` and the
empty string are the falsy inputs mapped to `''`. -/
def normalizeHospitalName (hospitalName : Option String) : String :=
  match hospitalName with
  | none => ""
  | some raw =>
      if raw = "" then ""
      else
        let normalized := trimList (jsToLower raw).toList
        let normalized := prefixesToRemove.foldl
          (fun s p => if p.toList.isPrefixOf s then trimList (s.drop p.length) else s) normalized
        let normalized := suffixesToRemove.foldl
          (fun s suf =>
            if suf.toList.isSuffixOf s then trimList (s.take (s.length - suf.length)) else s)
          normalized
        let normalized := abbreviationPairs.foldl applyAbbrev normalized
        let normalized := normalized.map
          (fun c => if ('a' ≤ c ∧ c ≤ 'z') ∨ c.isDigit ∨ jsIsSpace c then c else ' ')
        String.mk (trimList (collapseWs normalized))

/-- Levenshtein edit distance (the source's DP matrix computes this function;
here it is written as the textbook recursion with the same value). -/
def levenshteinDistance : List Char → List Char → ℕ
  | [], b => b.length
  | a, [] => a.length
  | x :: xs, y :: ys =>
      let indicator := if x = y then 0 else 1
      min (min (levenshteinDistance (x :: xs) ys + 1) (levenshteinDistance xs (y :: ys) + 1))
        (levenshteinDistance xs ys + indicator)
termination_by a b => a.length + b.length
decreasing_by all_goals simp_arith

/-- Tokens of length above 2 from a normalized hospital name
(`s.split(' ').filter(w => w.length > 2)`). -/
def fuzzyWords (s : String) : List String :=
  (s.splitOn " ").filter (fun w => w.length > 2)

/-- Levenshtein-based similarity `1 - distance / max(len(a), len(b))` of
`calculateFuzzyMatch`. -/
def levSimilarityOf (s1 s2 : String) : ℚ :=
  1 - ((levenshteinDistance s1.toList s2.toList : ℕ) : ℚ) /
    ((max s1.length s2.length : ℕ) : ℚ)

/-- Word-overlap ratio
`commonWords.length / max(words1.length, words2.length, 1)` of
`calculateFuzzyMatch`. -/
def wordOverlapOf (s1 s2 : String) : ℚ :=
  (((fuzzyWords s1).filter (fun w => (fuzzyWords s2).contains w)).length : ℚ) /
    ((max (max (fuzzyWords s1).length (fuzzyWords s2).length) 1 : ℕ) : ℚ)

/-- `calculateFuzzyMatch(str1, str2)` (lines 3168-3209): normalized Levenshtein
similarity blended with a word-overlap bonus. -/
def calculateFuzzyMatch (str1 str2 : String) : ℚ :=
  if str1 = "" ∨ str2 = "" then 0
  else
    let s1 := normalizeHospitalName (some str1)
    let s2 := normalizeHospitalName (some str2)
    if s1 = s2 then 1
    else max (levSimilarityOf s1 s2) (wordOverlapOf s1 s2 * 0.8)

/-- Known network hospital list of `enhancedHospitalMatching`. -/
def knownNetworkHospitals : List String :=
  ["apollo hospital", "apollo trauma hospital", "apollo hospitals",
   "fortis hospital", "fortis healthcare", "max hospital", "medanta",
   "aiims", "pgimer", "safdarjung hospital", "ram manohar lohia hospital",
   "gangaram hospital", "batra hospital", "holy family hospital"]

/-- Hospital chain fragments of `enhancedHospitalMatching`. -/
def hospitalChains : List String :=
  ["apollo", "fortis", "max", "medanta", "narayana", "manipal", "columbia asia"]

/-- Major city tokens of `enhancedHospitalMatching`. -/
def validCities : List String :=
  ["mumbai", "delhi", "bangalore", "chennai", "hyderabad", "pune", "kolkata", "ahmedabad"]

/-- Step 1 of `enhancedHospitalMatching`: fold of the fuzzy scores against
`knownNetworkHospitals`, keeping the best one above the 0.8 gate. -/
def exactMatchScoreOf (normalizedInput : String) : ℚ :=
  knownNetworkHospitals.foldl
    (fun acc networkHospital =>
      let fuzzyScore := calculateFuzzyMatch normalizedInput networkHospital
      if fuzzyScore > 0.8 then max acc fuzzyScore else acc)
    0

/-- Step 3 of `enhancedHospitalMatching`: hospital-chain keyword score. -/
def chainMatchScoreOf (normalizedInput : String) : ℚ :=
  if hospitalChains.any (fun chain => jsIncludes normalizedInput chain) then 0.8 else 0

/-- Step 4 of `enhancedHospitalMatching`: location bonus. -/
def locationBonusOf (normalizedInput : String) : ℚ :=
  if validCities.any (fun city => jsIncludes normalizedInput city) then 0.1 else 0

/-- `enhancedHospitalMatching(hospitalName, hospitalInfo, networkEmbedding)`
(lines 3212-3286); `embed` models the external `generateEmbedding`.  The final
score is `max(exactMatchScore*0.4, vectorSimilarity*0.3, chainMatchScore*0.25)
+ locationBonus`, capped at 1. -/
noncomputable def enhancedHospitalMatching (embed : String → List ℝ) (hospitalName : Option String)
    (hospitalInfo : String) (networkEmbedding : Option (List ℝ)) : ℝ :=
  let fullHospitalText := ((hospitalName.getD "") ++ " " ++ hospitalInfo).trim
  if fullHospitalText = "" then 0
  else
    let normalizedInput := normalizeHospitalName (some fullHospitalText)
    let vectorSimilarity :=
      calculateCosineSimilarity (some (embed fullHospitalText)) networkEmbedding
    let finalScore : ℝ :=
      max (max ((exactMatchScoreOf normalizedInput : ℝ) * 0.4) (vectorSimilarity * 0.3))
        ((chainMatchScoreOf normalizedInput : ℝ) * 0.25) + (locationBonusOf normalizedInput : ℝ)
    min finalScore 1

/-! ## Indian currency normalization and amount extraction
(part_003 lines 1599-1674) -/

/-- The `\bINR\b|\bRs\.?\b` global case-insensitive removal inside
`normalizeIndianCurrencyString`: alternatives are tried in order at each
position; `Rs\.?` greedily takes the dot and backtracks when the trailing
`\b` fails after it (a boundary after `.` needs a following word character,
a boundary after `R`/`s` needs a following non-word character). -/
def removeCurrencyWordsAux : ℕ → Option Char → List Char → List Char
  | 0, _, l => l
  | _, _, [] => []
  | fuel + 1, prev, c :: rest =>
      let l := c :: rest
      if ciStartsWith ['i', 'n', 'r'] l && notWord prev && notWord (l.drop 3).head? then
        removeCurrencyWordsAux fuel (l.drop 2).head? (l.drop 3)
      else if ciStartsWith ['r', 's', '.'] l && notWord prev && isWordOpt (l.drop 3).head? then
        removeCurrencyWordsAux fuel (some '.') (l.drop 3)
      else if ciStartsWith ['r', 's'] l && notWord prev && notWord (l.drop 2).head? then
        removeCurrencyWordsAux fuel (l.drop 1).head? (l.drop 2)
      else c :: removeCurrencyWordsAux fuel (some c) rest

/-- Entry point of the currency-word removal; the fuel is the text length,
and every step consumes at least one character. -/
def removeCurrencyWords (prev : Option Char) (l : List Char) : List Char :=
  removeCurrencyWordsAux l.length prev l

/-- Keep the first `.`, dropping any later dots (OCR cleanup step). -/
def dedupeDots : Bool → List Char → List Char
  | _, [] => []
  | seen, c :: rest =>
      if c = '.' then
        if seen then dedupeDots true rest else '.' :: dedupeDots true rest
      else c :: dedupeDots seen rest

/-- Remove every literal slash-dash marker (the `replace` of the two-character
sequence slash dash by the empty string). -/
def removeSlashDash : List Char → List Char
  | '/' :: '-' :: rest => removeSlashDash rest
  | c :: rest => c :: removeSlashDash rest
  | [] => []

/-- `normalizeIndianCurrencyString(raw)` (lines 1600-1620). -/
def normalizeIndianCurrencyString (raw : String) : String :=
  if raw = "" then ""
  else
    let s := raw.toList.filter (fun c => c ≠ '₹')
    let s := removeCurrencyWords none s
    let s := removeSlashDash s
    let s := s.filter (fun c => !jsIsSpace c)
    let s := s.filter (fun c => c.isDigit ∨ c = '.' ∨ c = ',')
    let s := dedupeDots false s
    let s := s.filter (fun c => c ≠ ',')
    String.mk s

/-- Comma groups `(?:,[0-9]{2,3})*` of the amount pattern (greedy, never
forced to backtrack because everything after them is optional). -/
def takeCommaGroupsAux : ℕ → List Char → List Char × List Char
  | 0, l => ([], l)
  | fuel + 1, l =>
      match l with
      | ',' :: rest =>
          let ds := (rest.takeWhile Char.isDigit).take 3
          if 2 ≤ ds.length then
            let step := takeCommaGroupsAux fuel (rest.drop ds.length)
            (',' :: (ds ++ step.1), step.2)
          else ([], ',' :: rest)
      | _ => ([], l)

/-- Comma groups of the amount pattern; the fuel is the list length, and
every matched group consumes at least three characters. -/
def takeCommaGroups (l : List Char) : List Char × List Char :=
  takeCommaGroupsAux l.length l

/-- Optional decimal part `(?:\.[0-9]+)?`. -/
def takeDecimal : List Char → List Char × List Char
  | '.' :: rest =>
      let ds := rest.takeWhile Char.isDigit
      if ds = [] then ([], '.' :: rest) else ('.' :: ds, rest.drop ds.length)
  | l => ([], l)

/-- Optional currency suffix: `INR`, `Rs\.?`, or the slash-dash marker
(case-insensitive, no boundary assertions). -/
def takeSuffix (l : List Char) : List Char × List Char :=
  if ciStartsWith ['i', 'n', 'r'] l then (l.take 3, l.drop 3)
  else if ciStartsWith ['r', 's'] l then
    match l.drop 2 with
    | '.' :: r => (l.take 2 ++ ['.'], r)
    | _ => (l.take 2, l.drop 2)
  else
    match l with
    | '/' :: '-' :: r => (['/', '-'], r)
    | _ => ([], l)

/-- Body of the amount pattern after the optional currency prefix:
digits `{1,3}`, comma groups `{2,3}`, an optional decimal part, whitespace,
and an optional currency suffix.
Returns the matched characters and the remaining text. -/
def matchAmountBody (l : List Char) : Option (List Char × List Char) :=
  let ds := (l.takeWhile Char.isDigit).take 3
  if ds = [] then none
  else
    let l2 := l.drop ds.length
    let g := takeCommaGroups l2
    let dec := takeDecimal g.2
    let sp := dec.2.takeWhile jsIsSpace
    let l5 := dec.2.drop sp.length
    let suf := takeSuffix l5
    some (ds ++ g.1 ++ dec.1 ++ sp ++ suf.1, suf.2)

/-- One attempted match of the full amount pattern
`(₹|Rs\.?\s*|INR\s*)?…` at the current position, trying the prefix
alternatives in source order and falling back to no prefix. -/
def matchAmountAt (l : List Char) : Option (List Char × List Char) :=
  (match l with
   | '₹' :: l1 => (matchAmountBody l1).map (fun mr => ('₹' :: mr.1, mr.2))
   | _ => none)
  <|>
  (if ciStartsWith ['r', 's'] l then
     (match l.drop 2 with
      | '.' :: l2 =>
          let sp := l2.takeWhile jsIsSpace
          (matchAmountBody (l2.drop sp.length)).map
            (fun mr => (l.take 2 ++ '.' :: sp ++ mr.1, mr.2))
      | _ => none)
     <|>
     (let l1 := l.drop 2
      let sp := l1.takeWhile jsIsSpace
      (matchAmountBody (l1.drop sp.length)).map (fun mr => (l.take 2 ++ sp ++ mr.1, mr.2)))
   else none)
  <|>
  (if ciStartsWith ['i', 'n', 'r'] l then
     let l1 := l.drop 3
     let sp := l1.takeWhile jsIsSpace
     (matchAmountBody (l1.drop sp.length)).map (fun mr => (l.take 3 ++ sp ++ mr.1, mr.2))
   else none)
  <|> matchAmountBody l

/-- Repeated global matching (`text.match(pattern)`): find the next match,
record it, continue after it; on failure advance one character.  The fuel is
the text length; every recorded match consumes at least one character. -/
def scanAmountsAux : ℕ → List Char → List (List Char)
  | 0, _ => []
  | _, [] => []
  | fuel + 1, c :: rest =>
      match matchAmountAt (c :: rest) with
      | some mr => mr.1 :: scanAmountsAux fuel mr.2
      | none => scanAmountsAux fuel rest

/-- `extractAllAmountsINR(text)` (lines 1623-1636). -/
def extractAllAmountsINR (text : String) : List ℚ :=
  if text = "" then []
  else
    let matchedRuns := scanAmountsAux text.toList.length text.toList
    matchedRuns.foldl
      (fun nums m =>
        let norm := normalizeIndianCurrencyString (String.mk m)
        if norm = "" then nums
        else
          match parseDecimal norm.toList with
          | some val => nums ++ [val]
          | none => nums)
      []

/-- Total-indicating keyword list of `pickBestClaimAmount`. -/
def totalKeywords : List String :=
  ["total", "grand total", "net payable", "amount due", "final amount",
   "total estimated cost"]

/-- `pickBestClaimAmount(pricingText)` (lines 1639-1674): each candidate's
score is the count of total keywords present anywhere in the text plus
`log10(max(amount, 1))`; the loop keeps the first strict improver, and a falsy
(zero) winner falls back to `Math.max(...amounts)`.  (The per-candidate
`amtStrs` array in the source is computed but never used.) -/
noncomputable def pickBestClaimAmount (pricingText : String) : ℚ :=
  let amounts := extractAllAmountsINR pricingText
  if amounts = [] then 0
  else
    let lower := jsToLower pricingText
    let kwCount : ℕ := (totalKeywords.filter (fun kw => jsIncludes lower kw)).length
    let result := amounts.foldl
      (fun (acc : ℚ × ℝ) (amt : ℚ) =>
        let score : ℝ := (kwCount : ℝ) + Real.logb 10 (max (amt : ℝ) 1)
        if score > acc.2 then (amt, score) else acc)
      (0, -1)
    let best := result.1
    if best ≠ 0 then best
    else
      match amounts with
      | [] => 0
      | a :: as => as.foldl max a

/-! ## Pricing extraction and validation (part_003 lines 2909-3068) -/

/-- A `{procedure, amount}` pair extracted by the procedure pattern. -/
structure ProcedurePrice where
  procedure : String
  amount : ℚ
deriving DecidableEq

/-- The object `{ totalAmounts, procedurePrices }` returned by
`extractPricingFromText` for truthy text. -/
structure ExtractedPricing where
  totalAmounts : List ℚ
  procedurePrices : List ProcedurePrice
deriving DecidableEq

/-- One match of `/₹\s*([\d,]+(?:\.\d{2})?)/g` at the current position,
returning the captured group and the rest. -/
def matchPriceAt : List Char → Option (List Char × List Char)
  | '₹' :: l1 =>
      let sp := l1.takeWhile jsIsSpace
      let l2 := l1.drop sp.length
      let run := l2.takeWhile (fun c => c.isDigit || c == ',')
      if run = [] then none
      else
        let l3 := l2.drop run.length
        match l3 with
        | '.' :: d1 :: d2 :: r =>
            if d1.isDigit && d2.isDigit then some (run ++ ['.', d1, d2], r)
            else some (run, l3)
        | _ => some (run, l3)
  | _ => none

/-- Global scan with the price pattern, keeping amounts parsed `> 0`. -/
def scanPricesAux : ℕ → List Char → List ℚ
  | 0, _ => []
  | _, [] => []
  | fuel + 1, c :: rest =>
      match matchPriceAt (c :: rest) with
      | some gr =>
          (match parseDecimal (gr.1.filter (fun ch => ch ≠ ',')) with
           | some amount =>
               if amount > 0 then amount :: scanPricesAux fuel gr.2
               else scanPricesAux fuel gr.2
           | none => scanPricesAux fuel gr.2)
      | none => scanPricesAux fuel rest

/-- Tail `\s*:?\s*₹\s*([\d,]+)` of the procedure pattern, returning the second
captured group and the rest. -/
def matchProcTail (l : List Char) : Option (List Char × List Char) :=
  let sp1 := l.takeWhile jsIsSpace
  let l1 := l.drop sp1.length
  let l2 := match l1 with
    | ':' :: r => r
    | _ => l1
  let sp2 := l2.takeWhile jsIsSpace
  let l3 := l2.drop sp2.length
  match l3 with
  | '₹' :: l4 =>
      let sp3 := l4.takeWhile jsIsSpace
      let l5 := l4.drop sp3.length
      let run := l5.takeWhile (fun c => c.isDigit || c == ',')
      if run = [] then none else some (run, l5.drop run.length)
  | _ => none

/-- Backtracking over the greedy first group `([a-zA-Z\s]+)`: try the longest
letters-and-spaces run first, shrinking until the tail matches. -/
def matchProcGroup (l : List Char) : ℕ → Option (List Char × List Char × List Char)
  | 0 => none
  | k + 1 =>
      match matchProcTail (l.drop (k + 1)) with
      | some gr => some (l.take (k + 1), gr.1, gr.2)
      | none => matchProcGroup l k

/-- One match of `/([a-zA-Z\s]+)\s*:?\s*₹\s*([\d,]+)/g` at the current
position: `(group1, group2, rest)`. -/
def matchProcAt (l : List Char) : Option (List Char × List Char × List Char) :=
  let run := l.takeWhile (fun c => c.isAlpha || jsIsSpace c)
  if run = [] then none else matchProcGroup l run.length

/-- Global scan with the procedure pattern, keeping pairs with amount `> 0`
and trimmed lower-cased procedure name longer than 3 characters. -/
def scanProcPricesAux : ℕ → List Char → List ProcedurePrice
  | 0, _ => []
  | _, [] => []
  | fuel + 1, c :: rest =>
      match matchProcAt (c :: rest) with
      | some m =>
          let procName := jsToLower (String.mk (trimList m.1))
          (match parseDecimal (m.2.1.filter (fun ch => ch ≠ ',')) with
           | some amount =>
               if amount > 0 ∧ procName.length > 3 then
                 ⟨procName, amount⟩ :: scanProcPricesAux fuel m.2.2
               else scanProcPricesAux fuel m.2.2
           | none => scanProcPricesAux fuel m.2.2)
      | none => scanProcPricesAux fuel rest

/-- `extractPricingFromText(text)` (lines 2941-2968).  For falsy text the
source returns the bare array `[]` instead of the
`{ totalAmounts, procedurePrices }` object; its caller immediately reads
`.totalAmounts.length`, which then throws.  The ill-shaped value is modelled
as `none`. -/
def extractPricingFromText (text : String) : Option ExtractedPricing :=
  if text = "" then none
  else
    some { totalAmounts := scanPricesAux text.toList.length text.toList,
           procedurePrices := scanProcPricesAux text.toList.length text.toList }

/-- One `{min, max, avg, unit?}` price range. -/
structure PriceRange where
  lo : ℚ
  hi : ℚ
  avg : ℚ
  unit : Option String
deriving DecidableEq

/-- `getMedicalPricingDatabase()` (lines 2910-2938); `lo`/`hi` stand for the
source's `min`/`max` fields. -/
def medicalPricingDatabase : List (String × List (String × PriceRange)) :=
  [ ("neurological",
      [("craniotomy", ⟨200000, 800000, 400000, none⟩),
       ("brain surgery", ⟨300000, 1000000, 500000, none⟩),
       ("neurosurgery", ⟨250000, 900000, 450000, none⟩),
       ("mri brain", ⟨8000, 25000, 15000, none⟩),
       ("ct scan head", ⟨3000, 15000, 8000, none⟩)]),
    ("general",
      [("icu charges", ⟨10000, 50000, 25000, some "per day"⟩),
       ("ventilator", ⟨5000, 20000, 12000, some "per day"⟩),
       ("operation theatre", ⟨8000, 30000, 15000, none⟩),
       ("anesthesia", ⟨5000, 25000, 12000, none⟩),
       ("blood tests", ⟨2000, 10000, 5000, none⟩),
       ("physiotherapy", ⟨1000, 5000, 2500, some "per session"⟩)]),
    ("hospital",
      [("admission", ⟨1000, 5000, 2500, none⟩),
       ("registration", ⟨500, 2000, 1000, none⟩),
       ("nursing", ⟨2000, 8000, 4000, some "per day"⟩),
       ("consultation", ⟨1500, 5000, 2500, none⟩),
       ("medicines", ⟨5000, 50000, 15000, none⟩)]) ]

/-- `pricingDatabase[category] || pricingDatabase.general`. -/
def pricingDBFor (category : String) : List (String × PriceRange) :=
  match medicalPricingDatabase.find? (fun e => e.1 == category) with
  | some e => e.2
  | none =>
      match medicalPricingDatabase.find? (fun e => e.1 == "general") with
      | some e => e.2
      | none => []

/-- Key lookup `categoryPricing[key]`. -/
def priceLookup (table : List (String × PriceRange)) (key : String) : Option PriceRange :=
  (table.find? (fun e => e.1 == key)).map (fun e => e.2)

/-- Result record of `validatePricingInformation`. -/
structure PricingValidation where
  isValid : Bool
  confidence : ℚ
  reasons : List String
  issues : List String
deriving DecidableEq

/-- The policy's `sum_insured` as seen by `validatePricingInformation`:
absent, a number, or a string to be stripped to its digits.  (The pipeline's
own `policyDetails` object carries `sumInsured`, not `sum_insured`, so the
real caller always passes an absent field.) -/
def sumInsuredTruthy : Option (ℚ ⊕ String) → Bool
  | none => false
  | some (.inl n) => n ≠ 0
  | some (.inr s) => s ≠ ""

/-- `parseFloat(sum_insured.replace(/[^0-9]/g, ''))` for strings, identity for
numbers; `none` models `NaN`. -/
def sumInsuredValue : ℚ ⊕ String → Option ℚ
  | .inl n => some n
  | .inr s =>
      let ds := s.toList.filter Char.isDigit
      if ds = [] then none else some ((digitsToNat ds : ℕ) : ℚ)

/-- `procedure.replace(/\s+/g, ' ').trim()`. -/
def procedureKeyOf (procedure : String) : String :=
  String.mk (trimList (collapseWs procedure.toList))

/-- Step 4 of `validatePricingInformation`: walk the matched categories and
their matched procedures, validating extracted procedure prices against the
price database.  Accumulates
`(procedureValidationScore, validatedProcedures, reasons, issues)`. -/
def procedureValidationStats (categories : List CategoryMatch)
    (procedurePrices : List ProcedurePrice) : ℕ × ℕ × List String × List String :=
  categories.foldl
    (fun acc category =>
      let categoryPricing := pricingDBFor category.category
      category.matchedProcedures.foldl
        (fun acc2 procedure =>
          let procedureKey := procedureKeyOf procedure
          let pricingInfo :=
            match priceLookup categoryPricing procedureKey with
            | some pi => some pi
            | none => priceLookup categoryPricing procedure
          match pricingInfo with
          | some pi =>
              let matchingPrice := procedurePrices.find?
                (fun p => jsIncludes p.procedure procedure || jsIncludes procedure p.procedure)
              let acc3 :=
                match matchingPrice with
                | some mp =>
                    if mp.amount ≥ pi.lo ∧ mp.amount ≤ pi.hi then
                      (acc2.1 + 1, acc2.2.1,
                       acc2.2.2.1 ++ [procedure ++ " pricing (₹" ++ formatINR mp.amount ++
                         ") within expected range"],
                       acc2.2.2.2)
                    else if mp.amount > pi.hi then
                      (acc2.1, acc2.2.1, acc2.2.2.1,
                       acc2.2.2.2 ++ [procedure ++ " pricing (₹" ++ formatINR mp.amount ++
                         ") above expected range (max: ₹" ++ formatINR pi.hi ++ ")"])
                    else
                      (acc2.1, acc2.2.1, acc2.2.2.1,
                       acc2.2.2.2 ++ [procedure ++ " pricing (₹" ++ formatINR mp.amount ++
                         ") below expected range (min: ₹" ++ formatINR pi.lo ++ ")"])
                | none => acc2
              (acc3.1, acc3.2.1 + 1, acc3.2.2.1, acc3.2.2.2)
          | none => acc2)
        acc)
    (0, 0, [], [])

/-- Step 3 of `validatePricingInformation`: total-claim-amount checks,
producing the `(reasons, issues)` accumulated before the procedure loop. -/
def totalAmountChecks (claimAmount : ℚ) (policySumInsured : Option (ℚ ⊕ String)) :
    List String × List String :=
  if claimAmount ≠ 0 ∧ claimAmount > 0 then
    let v :=
      if claimAmount < 1000 then
        (([] : List String), ["Claim amount too low for medical treatment"])
      else if claimAmount > 2000000 then
        ([], ["Claim amount unusually high, requires detailed review"])
      else (["Claim amount within reasonable range"], [])
    if sumInsuredTruthy policySumInsured then
      match policySumInsured with
      | some si =>
          (match sumInsuredValue si with
           | some sumInsured =>
               if claimAmount ≤ sumInsured then
                 (v.1 ++ ["Claim amount within policy coverage limit"], v.2)
               else
                 (v.1, v.2 ++ ["Claim amount (₹" ++ formatINR claimAmount ++
                   ") exceeds sum insured (₹" ++ formatINR sumInsured ++ ")"])
           | none =>
               (v.1, v.2 ++ ["Claim amount (₹" ++ formatINR claimAmount ++
                 ") exceeds sum insured (₹NaN)"]))
      | none => v
    else v
  else ([], [])

/-- `hasReasonableTotal` of step 5. -/
def hasReasonableTotal (claimAmount : ℚ) : Bool :=
  claimAmount > 1000 ∧ claimAmount < 2000000

/-- `hasValidProcedures` of step 5 (with `0/0 = NaN > 0.6` false, matched by
the short-circuit on `validatedProcedures = 0`). -/
def hasValidProcedures (procedureValidationScore validatedProcedures : ℕ) : Bool :=
  validatedProcedures = 0 ∨
    (procedureValidationScore : ℚ) / (validatedProcedures : ℚ) > 0.6

/-- `hasDocumentedPricing` of step 5. -/
def hasDocumentedPricing (extractedPricing : ExtractedPricing) : Bool :=
  extractedPricing.totalAmounts.length > 0 ∨ extractedPricing.procedurePrices.length > 0

/-- The body of `validatePricingInformation` from the point where the
extracted pricing object is available (lines 2985-3067). -/
def validatePricingCore (extractedPricing : ExtractedPricing) (conditionsText : String)
    (claimAmount : ℚ) (policySumInsured : Option (ℚ ⊕ String)) : PricingValidation :=
  let medicalAnalysis := extractMedicalTerms conditionsText
  let base := totalAmountChecks claimAmount policySumInsured
  let stats := procedureValidationStats medicalAnalysis.categories
    extractedPricing.procedurePrices
  let reasons := base.1 ++ stats.2.2.1
  let issues := base.2 ++ stats.2.2.2
  let confidenceScore : ℚ :=
    (if hasReasonableTotal claimAmount then 0.4 else 0) +
    (if hasValidProcedures stats.1 stats.2.1 then 0.3 else 0) +
    (if hasDocumentedPricing extractedPricing then 0.2 else 0) +
    (if reasons.length > issues.length then 0.1 else 0)
  { isValid := confidenceScore ≥ 0.5 ∧ issues.length ≤ 2,
    confidence := confidenceScore, reasons := reasons, issues := issues }

/-- `validatePricingInformation(pricingText, conditionsText, claimAmount,
policyDetails)` (lines 2971-3068).  An empty pricing text makes
`extractPricingFromText` return the ill-shaped bare array, and the very next
access `extractedPricing.totalAmounts.length` throws a `TypeError`. -/
def validatePricingInformation (pricingText conditionsText : String) (claimAmount : ℚ)
    (policySumInsured : Option (ℚ ⊕ String)) : Except String PricingValidation :=
  match extractPricingFromText pricingText with
  | none => .error "Cannot read properties of undefined (reading 'length')"
  | some extractedPricing =>
      .ok (validatePricingCore extractedPricing conditionsText claimAmount policySumInsured)

/-! ## Comprehensive policy validation (part_003 lines 2512-2683) -/

/-- The three segmented text slices consumed by the validation. -/
structure SegregatedContent where
  pricing_and_date : String
  conditions : String
  hospital_info : String
deriving DecidableEq

/-- The four policy embeddings fetched from the vector store. -/
structure PolicyEmbeddings where
  covered_conditions_embedding : List ℝ
  excluded_conditions_embedding : List ℝ
  pricing_embedding : List ℝ
  network_hospitals_embedding : List ℝ

/-- The `validationResults` object.  The catch-all error path returns an
object without `overallScore` / `passedChecks` / `totalChecks`, hence the
`Option` fields. -/
structure ValidationResults where
  withinSumInsured : Bool
  conditionCovered : Bool
  conditionNotExcluded : Bool
  pricingMatches : Bool
  hospitalInNetwork : Bool
  policyActive : Bool
  validationErrors : List String
  overallScore : Option ℚ
  passedChecks : Option ℕ
  totalChecks : Option ℕ

/-- JS truthiness of the extracted hospital name. -/
def truthyName : Option String → Bool
  | none => false
  | some s => s ≠ ""

/-- The `try` body of `validateClaimAgainstPolicy`.  The database query for
the policy embeddings is a parameter (`none` models an empty query result,
which throws); the pricing step rethrows the `TypeError` triggered by an
empty pricing segment.  `embed` models `generateEmbedding` (which by contract
falls back to a zero vector instead of throwing).  Message strings keep the
source's wording with locale-formatted numbers and percentage decorations
abstracted away. -/
noncomputable def validateClaimAgainstPolicyTry (embed : String → List ℝ)
    (segregatedContent : SegregatedContent) (hospitalName : Option String)
    (policyDetails : PolicyDetails) (policyEmbeddings : Option PolicyEmbeddings)
    (claimAmount : ℚ) : Except String ValidationResults :=
  let withinSumInsured := claimAmount ≤ policyDetails.sumInsured
  let errs1 : List String :=
    if withinSumInsured then []
    else ["Claim amount ₹" ++ formatINR claimAmount ++ " exceeds sum insured ₹" ++
      formatINR policyDetails.sumInsured]
  let conditionsEmbedding := embed segregatedContent.conditions
  match policyEmbeddings with
  | none => .error "Policy embeddings not found in database"
  | some policyData =>
      let conditionCoverageScore := enhancedConditionMatching embed
        segregatedContent.conditions (some policyData.covered_conditions_embedding)
      let conditionCovered := conditionCoverageScore > 0.6
      let errs2 := errs1 ++
        (if conditionCovered then []
         else ["Medical condition not sufficiently covered by policy"])
      let exclusionAnalysis := checkConditionExclusions segregatedContent.conditions
        (some conditionsEmbedding) (some policyData.excluded_conditions_embedding)
      let conditionNotExcluded := !exclusionAnalysis.isExcluded
      let errs3 := errs2 ++
        (if exclusionAnalysis.isExcluded then
           ["Medical condition may be excluded: " ++ exclusionAnalysis.reason]
         else [])
      match validatePricingInformation segregatedContent.pricing_and_date
          segregatedContent.conditions claimAmount none with
      | .error e => .error e
      | .ok pricingValidation =>
          let pricingMatches := pricingValidation.isValid
          let errs4 := errs3 ++
            (if pricingValidation.isValid then []
             else ["Pricing validation failed: " ++
               String.intercalate ", " pricingValidation.issues])
          let hosp :=
            if truthyName hospitalName then
              let hospitalNetworkScore := enhancedHospitalMatching embed hospitalName
                segregatedContent.hospital_info (some policyData.network_hospitals_embedding)
              if hospitalNetworkScore > 0.5 then (true, ([] : List String))
              else
                (false, ["Hospital \"" ++ hospitalName.getD "" ++ "\" not in policy network"])
            else (false, ["Hospital name could not be determined from documents"])
          let hospitalInNetwork := hosp.1
          let errs5 := errs4 ++ hosp.2
          let allChecks : List (String × Bool × ℚ) :=
            [("Sum Insured Limit", withinSumInsured, 0.25),
             ("Condition Coverage", conditionCovered, 0.25),
             ("Not Excluded", conditionNotExcluded, 0.15),
             ("Pricing Valid", pricingMatches, 0.20),
             ("Hospital Network", hospitalInNetwork, 0.15)]
          let passedChecks := (allChecks.filter (fun check => check.2.1)).length
          let weightedScore : ℚ :=
            allChecks.foldl (fun score check => score + (if check.2.1 then check.2.2 else 0)) 0
          .ok { withinSumInsured := withinSumInsured, conditionCovered := conditionCovered,
                conditionNotExcluded := conditionNotExcluded, pricingMatches := pricingMatches,
                hospitalInNetwork := hospitalInNetwork,
                policyActive := policyDetails.isActive, validationErrors := errs5,
                overallScore := some weightedScore, passedChecks := some passedChecks,
                totalChecks := some allChecks.length }

/-- `validateClaimAgainstPolicy` with its catch-all handler (lines 2671-2682):
any internal throw yields the all-false result (including
`policyActive: false`) carrying a single system-error message. -/
noncomputable def validateClaimAgainstPolicy (embed : String → List ℝ)
    (segregatedContent : SegregatedContent) (hospitalName : Option String)
    (policyDetails : PolicyDetails) (policyEmbeddings : Option PolicyEmbeddings)
    (claimAmount : ℚ) : ValidationResults :=
  match validateClaimAgainstPolicyTry embed segregatedContent hospitalName policyDetails
      policyEmbeddings claimAmount with
  | .ok r => r
  | .error msg =>
      { withinSumInsured := false, conditionCovered := false, conditionNotExcluded := false,
        pricingMatches := false, hospitalInNetwork := false, policyActive := false,
        validationErrors := ["Validation system error: " ++ msg],
        overallScore := none, passedChecks := none, totalChecks := none }

/-- The decision step of `runEnhancedClaimProcess` applied to a validation
result record (lines 4136-4155). -/
def runDecisionStep (r : ValidationResults) : String :=
  claimDecision r.withinSumInsured r.conditionCovered r.conditionNotExcluded
    r.pricingMatches r.hospitalInNetwork r.policyActive

/-! ## Supporting lemmas: the cosine loop and Cauchy-Schwarz bounds -/

theorem foldl_cosineStep (A : List (ℝ × ℝ)) (a b c : ℝ) :
    A.foldl cosineStep (a, b, c) =
      (a + (A.map (fun p => p.1 * p.2)).sum,
       b + (A.map (fun p => p.1 * p.1)).sum,
       c + (A.map (fun p => p.2 * p.2)).sum) := by
  induction A generalizing a b c with
  | nil => simp
  | cons p A ih =>
      simp only [List.foldl_cons, List.map_cons, List.sum_cons, cosineStep, ih]
      refine Prod.ext ?_ (Prod.ext ?_ ?_) <;> simp <;> ring

theorem cosineLoop_eq (v1 v2 : List ℝ) :
    cosineLoop v1 v2 =
      (((v1.zip v2).map (fun p => p.1 * p.2)).sum,
       ((v1.zip v2).map (fun p => p.1 * p.1)).sum,
       ((v1.zip v2).map (fun p => p.2 * p.2)).sum) := by
  simpa using foldl_cosineStep (v1.zip v2) 0 0 0

theorem zip_self_map_left (v1 : List ℝ) :
    ∀ v2 : List ℝ, v1.length = v2.length →
      ((v1.zip v2).map (fun p => p.1 * p.1)).sum = dotp v1 v1 := by
  induction v1 with
  | nil => intro v2 _; simp [dotp]
  | cons x xs ih =>
      intro v2 h
      cases v2 with
      | nil => simp at h
      | cons y ys =>
          simp only [List.length_cons, Nat.succ.injEq] at h
          simp only [List.zip_cons_cons, List.map_cons, List.sum_cons, dotp] at ih ⊢
          rw [ih ys h]

theorem zip_self_map_right (v1 : List ℝ) :
    ∀ v2 : List ℝ, v1.length = v2.length →
      ((v1.zip v2).map (fun p => p.2 * p.2)).sum = dotp v2 v2 := by
  induction v1 with
  | nil =>
      intro v2 h
      cases v2 with
      | nil => simp [dotp]
      | cons y ys => simp at h
  | cons x xs ih =>
      intro v2 h
      cases v2 with
      | nil => simp at h
      | cons y ys =>
          simp only [List.length_cons, Nat.succ.injEq] at h
          simp only [List.zip_cons_cons, List.map_cons, List.sum_cons, dotp] at ih ⊢
          rw [ih ys h]

theorem listPairSum_eq_range (h : (ℝ × ℝ) → ℝ) (A : List (ℝ × ℝ)) :
    (A.map h).sum = ∑ i ∈ Finset.range A.length, h (A.getD i (0, 0)) := by
  induction A with
  | nil => simp
  | cons p A ih =>
      rw [List.map_cons, List.sum_cons, ih, List.length_cons, Finset.sum_range_succ']
      simp [add_comm]

theorem dotp_self_nonneg (v : List ℝ) : 0 ≤ dotp v v := by
  induction v with
  | nil => simp [dotp]
  | cons x xs ih =>
      simp only [dotp, List.zip_cons_cons, List.map_cons, List.sum_cons] at ih ⊢
      have := mul_self_nonneg x
      linarith

theorem abs_cosine_sum_le (v1 v2 : List ℝ) :
    |((v1.zip v2).map (fun p => p.1 * p.2)).sum| ≤
      Real.sqrt (((v1.zip v2).map (fun p => p.1 * p.1)).sum) *
        Real.sqrt (((v1.zip v2).map (fun p => p.2 * p.2)).sum) := by
  set A := v1.zip v2 with hA
  rw [listPairSum_eq_range (fun p => p.1 * p.2),
    listPairSum_eq_range (fun p => p.1 * p.1), listPairSum_eq_range (fun p => p.2 * p.2)]
  set n := A.length with hn
  set f : ℕ → ℝ := fun i => (A.getD i (0, 0)).1 with hf
  set g : ℕ → ℝ := fun i => (A.getD i (0, 0)).2 with hg
  have e1 : ∀ i, f i * f i = f i ^ 2 := fun i => (sq (f i)).symm
  have e2 : ∀ i, g i * g i = g i ^ 2 := fun i => (sq (g i)).symm
  simp only [e1, e2]
  have h1 : (∑ i ∈ Finset.range n, f i * g i) ≤
      Real.sqrt (∑ i ∈ Finset.range n, f i ^ 2) * Real.sqrt (∑ i ∈ Finset.range n, g i ^ 2) :=
    Real.sum_mul_le_sqrt_mul_sqrt _ f g
  have h2 : (∑ i ∈ Finset.range n, (-f i) * g i) ≤
      Real.sqrt (∑ i ∈ Finset.range n, (-f i) ^ 2) *
        Real.sqrt (∑ i ∈ Finset.range n, g i ^ 2) :=
    Real.sum_mul_le_sqrt_mul_sqrt _ (fun i => -f i) g
  have e3 : (∑ i ∈ Finset.range n, (-f i) * g i) = -(∑ i ∈ Finset.range n, f i * g i) := by
    rw [← Finset.sum_neg_distrib]
    exact Finset.sum_congr rfl fun i _ => by ring
  have e4 : (∑ i ∈ Finset.range n, (-f i) ^ 2) = ∑ i ∈ Finset.range n, f i ^ 2 :=
    Finset.sum_congr rfl fun i _ => by ring
  rw [e3, e4] at h2
  rw [abs_le]
  exact ⟨by linarith, h1⟩

theorem calculateCosineSimilarity_mem_Icc (a b : Option (List ℝ)) :
    calculateCosineSimilarity a b ∈ Set.Icc (-1 : ℝ) 1 := by
  rcases a with _ | v1
  · simp [calculateCosineSimilarity, Set.mem_Icc]
  rcases b with _ | v2
  · simp [calculateCosineSimilarity, Set.mem_Icc]
  simp only [calculateCosineSimilarity, Set.mem_Icc]
  split_ifs with hlen hz
  · constructor <;> norm_num
  · constructor <;> norm_num
  · push_neg at hz
    have hS1 : (0 : ℝ) ≤ (cosineLoop v1 v2).2.1 := by
      rw [cosineLoop_eq]
      dsimp only
      rw [listPairSum_eq_range (fun p => p.1 * p.1)]
      refine Finset.sum_nonneg fun i _ => ?_
      exact mul_self_nonneg _
    have hS2 : (0 : ℝ) ≤ (cosineLoop v1 v2).2.2 := by
      rw [cosineLoop_eq]
      dsimp only
      rw [listPairSum_eq_range (fun p => p.2 * p.2)]
      refine Finset.sum_nonneg fun i _ => ?_
      exact mul_self_nonneg _
    have h1pos : 0 < Real.sqrt (cosineLoop v1 v2).2.1 :=
      lt_of_le_of_ne (Real.sqrt_nonneg _) (Ne.symm hz.1)
    have h2pos : 0 < Real.sqrt (cosineLoop v1 v2).2.2 :=
      lt_of_le_of_ne (Real.sqrt_nonneg _) (Ne.symm hz.2)
    have habs : |(cosineLoop v1 v2).1| ≤
        Real.sqrt (cosineLoop v1 v2).2.1 * Real.sqrt (cosineLoop v1 v2).2.2 := by
      rw [cosineLoop_eq]
      dsimp only
      exact abs_cosine_sum_le v1 v2
    have hd := abs_le.1 habs
    have hprod : 0 < Real.sqrt (cosineLoop v1 v2).2.1 * Real.sqrt (cosineLoop v1 v2).2.2 :=
      mul_pos h1pos h2pos
    constructor
    · rw [le_div_iff₀ hprod]; linarith [hd.1]
    · rw [div_le_one hprod]; exact hd.2

/-! ## C7: cosine similarity guards and formula -/

/-- C7.  For all vector inputs, `calculateCosineSimilarity` returns exactly 0
when either argument is null/missing, when the two vectors have different
lengths, or when either vector has zero norm; in all other cases it returns
`dot(a,b) / (‖a‖·‖b‖)`.  The division is always guarded and the function is
total. -/
theorem calculateCosineSimilarity_eq_spec (a b : Option (List ℝ)) :
    calculateCosineSimilarity a b = cosineSimilaritySpec a b := by
  rcases a with _ | v1
  · rfl
  rcases b with _ | v2
  · rfl
  simp only [calculateCosineSimilarity, cosineSimilaritySpec]
  by_cases hlen : v1.length ≠ v2.length
  · rw [if_pos hlen, if_pos hlen]
  · rw [if_neg hlen, if_neg hlen]
    push_neg at hlen
    have e0 : (cosineLoop v1 v2).1 = dotp v1 v2 := by
      rw [cosineLoop_eq]
      rfl
    have e1 : (cosineLoop v1 v2).2.1 = dotp v1 v1 := by
      rw [cosineLoop_eq]
      exact zip_self_map_left v1 v2 hlen
    have e2 : (cosineLoop v1 v2).2.2 = dotp v2 v2 := by
      rw [cosineLoop_eq]
      exact zip_self_map_right v1 v2 hlen

    rw [e0, e1, e2]
    simp only [vnorm]

/-! ## C5: the count-based three-way decision -/

/-- C5.  The decision is a function of the count of passed checks among the
six: exactly 6 yields APPROVED, 4 or 5 yields NEEDS_REVIEW, below 4 yields
REJECTED. -/
theorem claimDecision_count_characterization (b1 b2 b3 b4 b5 b6 : Bool) :
    (claimDecision b1 b2 b3 b4 b5 b6 = "APPROVED" ↔
      ([b1, b2, b3, b4, b5, b6].countP (fun b => b)) = 6) ∧
    (claimDecision b1 b2 b3 b4 b5 b6 = "NEEDS_REVIEW" ↔
      (([b1, b2, b3, b4, b5, b6].countP (fun b => b)) = 4 ∨
       ([b1, b2, b3, b4, b5, b6].countP (fun b => b)) = 5)) ∧
    (claimDecision b1 b2 b3 b4 b5 b6 = "REJECTED" ↔
      ([b1, b2, b3, b4, b5, b6].countP (fun b => b)) < 4) := by
  cases b1 <;> cases b2 <;> cases b3 <;> cases b4 <;> cases b5 <;> cases b6 <;>
    exact ⟨by decide, by decide, by decide⟩

/-! ## C1: inactive policies and the decision step -/

/-- C1 counterexample.  The decision step itself does not short-circuit on an
inactive policy: with the five other checks passing and `policyActive = false`
the decision is NEEDS_REVIEW, not REJECTED. -/
theorem claimDecision_inactive_not_rejected :
    claimDecision true true true true true false = "NEEDS_REVIEW" ∧
    claimDecision true true true true true false ≠ "REJECTED" := by
  exact ⟨by decide, by decide⟩

/-- C1 amended.  The inactive-policy short-circuit lives in
`fetchPolicyFromDB`, which throws before any validation runs; the decision
step of `runEnhancedClaimProcess` merely counts `policyActive` as one of six
checks, so a validation result with an inactive policy is never APPROVED and
is REJECTED exactly when fewer than four of the six checks pass. -/
theorem inactive_policy_amended :
    (∀ (p : StoredPolicy) (email : String), p.is_active = false →
      fetchPolicyFromDB (some p) email =
        .error "Your insurance policy has been expired. Claim rejected.") ∧
    (∀ b1 b2 b3 b4 b5 : Bool,
      claimDecision b1 b2 b3 b4 b5 false ≠ "APPROVED" ∧
      (claimDecision b1 b2 b3 b4 b5 false = "REJECTED" ↔
        ([b1, b2, b3, b4, b5, false].countP (fun b => b)) < 4)) := by
  constructor
  · intro p email h
    simp [fetchPolicyFromDB, h]
  · intro b1 b2 b3 b4 b5
    cases b1 <;> cases b2 <;> cases b3 <;> cases b4 <;> cases b5 <;>
      exact ⟨by decide, by decide⟩

/-- C1 witness: the amended statement applied to a concrete inactive policy
and a concrete check vector. -/
theorem inactive_policy_amended_witness :
    fetchPolicyFromDB
        (some ⟨"u@example.com", "GR", "Gold", 2023, "policy text", 500000, false⟩)
        "u@example.com" =
      .error "Your insurance policy has been expired. Claim rejected." ∧
    (claimDecision true true true true true false = "REJECTED" ↔
      ([true, true, true, true, true, false].countP (fun b => b)) < 4) :=
  ⟨inactive_policy_amended.1 _ "u@example.com" rfl,
   (inactive_policy_amended.2 true true true true true).2⟩

/-! ## Supporting lemmas: fuzzy-match and component score bounds -/

theorem levSimilarityOf_le_one (s1 s2 : String) : levSimilarityOf s1 s2 ≤ 1 := by
  unfold levSimilarityOf
  have hd : (0 : ℚ) ≤ ((levenshteinDistance s1.toList s2.toList : ℕ) : ℚ) /
      ((max s1.length s2.length : ℕ) : ℚ) :=
    div_nonneg (Nat.cast_nonneg _) (Nat.cast_nonneg _)
  linarith

theorem wordOverlapOf_mem_Icc (s1 s2 : String) :
    wordOverlapOf s1 s2 ∈ Set.Icc (0 : ℚ) 1 := by
  unfold wordOverlapOf
  constructor
  · exact div_nonneg (Nat.cast_nonneg _) (Nat.cast_nonneg _)
  · have hk : (1 : ℚ) ≤ ((max (max (fuzzyWords s1).length (fuzzyWords s2).length) 1 : ℕ) : ℚ) := by
      exact_mod_cast Nat.one_le_cast.mpr (le_max_right _ _)
    have hkpos : (0 : ℚ) <
        ((max (max (fuzzyWords s1).length (fuzzyWords s2).length) 1 : ℕ) : ℚ) := by linarith
    refine (div_le_one hkpos).mpr ?_
    have : ((fuzzyWords s1).filter (fun w => (fuzzyWords s2).contains w)).length ≤
        max (max (fuzzyWords s1).length (fuzzyWords s2).length) 1 :=
      le_trans (List.length_filter_le _ _)
        (le_trans (le_max_left _ _) (le_max_left _ _))
    exact_mod_cast this

theorem calculateFuzzyMatch_le_one (str1 str2 : String) :
    calculateFuzzyMatch str1 str2 ≤ 1 := by
  unfold calculateFuzzyMatch
  split_ifs with h1
  · norm_num
  · dsimp only
    split_ifs with h2
    · norm_num
    · apply max_le (levSimilarityOf_le_one _ _)
      have ho := wordOverlapOf_mem_Icc (normalizeHospitalName (some str1))
        (normalizeHospitalName (some str2))
      have h01 := ho.1
      have h02 := ho.2
      nlinarith

theorem exactMatchScoreOf_bounds (s : String) :
    0 ≤ exactMatchScoreOf s ∧ exactMatchScoreOf s ≤ 1 := by
  unfold exactMatchScoreOf
  suffices h : ∀ (l : List String) (acc : ℚ), 0 ≤ acc → acc ≤ 1 →
      0 ≤ l.foldl
        (fun acc networkHospital =>
          let fuzzyScore := calculateFuzzyMatch s networkHospital
          if fuzzyScore > 0.8 then max acc fuzzyScore else acc) acc ∧
      l.foldl
        (fun acc networkHospital =>
          let fuzzyScore := calculateFuzzyMatch s networkHospital
          if fuzzyScore > 0.8 then max acc fuzzyScore else acc) acc ≤ 1 by
    exact h knownNetworkHospitals 0 le_rfl (by norm_num)
  intro l
  induction l with
  | nil => intro acc h0 h1; exact ⟨h0, h1⟩
  | cons x xs ih =>
      intro acc h0 h1
      simp only [List.foldl_cons]
      by_cases hfz : calculateFuzzyMatch s x > 0.8
      · rw [if_pos hfz]
        exact ih _ (le_trans h0 (le_max_left _ _))
          (max_le h1 (calculateFuzzyMatch_le_one s x))
      · rw [if_neg hfz]
        exact ih _ h0 h1

theorem chainMatchScoreOf_bounds (s : String) :
    0 ≤ chainMatchScoreOf s ∧ chainMatchScoreOf s ≤ 0.8 := by
  unfold chainMatchScoreOf
  split_ifs <;> constructor <;> norm_num

theorem locationBonusOf_bounds (s : String) :
    0 ≤ locationBonusOf s ∧ locationBonusOf s ≤ 0.1 := by
  unfold locationBonusOf
  split_ifs <;> constructor <;> norm_num

/-! ## C2: the hospital-matching score can never exceed 0.5 -/

/-- C2.  For every input (hospital name, hospital-info text, network
embedding, and any behaviour of the embedding provider), the final hospital
score `max(exactMatchScore*0.4, vectorSimilarity*0.3, chainMatchScore*0.25) +
locationBonus` is at most `0.4 + 0.1 = 0.5`, because each component score is
at most 1; consequently the `hospitalInNetwork` check, which requires a score
strictly greater than 0.5, is false for every possible input. -/
theorem enhancedHospitalMatching_le_half (embed : String → List ℝ)
    (hospitalName : Option String) (hospitalInfo : String)
    (networkEmbedding : Option (List ℝ)) :
    enhancedHospitalMatching embed hospitalName hospitalInfo networkEmbedding ≤ 0.5 ∧
    ¬ (enhancedHospitalMatching embed hospitalName hospitalInfo networkEmbedding > 0.5) := by
  have main : enhancedHospitalMatching embed hospitalName hospitalInfo networkEmbedding ≤ 0.5 := by
    unfold enhancedHospitalMatching
    dsimp only
    split_ifs with h
    · norm_num
    · refine le_trans (min_le_left _ _) ?_
      set s := normalizeHospitalName
        (some (((hospitalName.getD "") ++ " " ++ hospitalInfo).trim)) with hs
      have he := exactMatchScoreOf_bounds s
      have hv := calculateCosineSimilarity_mem_Icc
        (some (embed (((hospitalName.getD "") ++ " " ++ hospitalInfo).trim))) networkEmbedding
      have hc := chainMatchScoreOf_bounds s
      have hl := locationBonusOf_bounds s
      have hA : ((exactMatchScoreOf s : ℚ) : ℝ) * 0.4 ≤ 0.4 := by
        have : ((exactMatchScoreOf s : ℚ) : ℝ) ≤ 1 := by exact_mod_cast he.2
        nlinarith
      have hB : calculateCosineSimilarity
          (some (embed (((hospitalName.getD "") ++ " " ++ hospitalInfo).trim)))
          networkEmbedding * 0.3 ≤ 0.4 := by
        have := hv.2
        nlinarith
      have hC : ((chainMatchScoreOf s : ℚ) : ℝ) * 0.25 ≤ 0.4 := by
        have h8 : ((chainMatchScoreOf s : ℚ) : ℝ) ≤ ((0.8 : ℚ) : ℝ) := by
          exact_mod_cast hc.2
        have h8e : ((0.8 : ℚ) : ℝ) = 0.8 := by norm_num
        nlinarith [h8, h8e]
      have hL : ((locationBonusOf s : ℚ) : ℝ) ≤ 0.1 := by
        have h1 : ((locationBonusOf s : ℚ) : ℝ) ≤ ((0.1 : ℚ) : ℝ) := by
          exact_mod_cast hl.2
        have h1e : ((0.1 : ℚ) : ℝ) = 0.1 := by norm_num
        linarith [h1, h1e]
      have hmax : max (max (((exactMatchScoreOf s : ℚ) : ℝ) * 0.4)
          (calculateCosineSimilarity
            (some (embed (((hospitalName.getD "") ++ " " ++ hospitalInfo).trim)))
            networkEmbedding * 0.3)) (((chainMatchScoreOf s : ℚ) : ℝ) * 0.25) ≤ 0.4 :=
        max_le (max_le hA hB) hC
      linarith
  exact ⟨main, not_lt.mpr main⟩

/-! ## Supporting lemmas: exclusion, coverage, pricing and condition bounds -/

theorem exclusionScanStep_score_bounds (t : String)
    (acc : List ExclusionDetail × ℚ × Option String) (data : ExclusionCategory)
    (hw0 : 0 ≤ data.weight) (hw1 : data.weight ≤ 0.9) (hk : 1 ≤ data.keywords.length)
    (h0 : 0 ≤ acc.2.1) (h1 : acc.2.1 ≤ 0.9) :
    0 ≤ (exclusionScanStep t acc data).2.1 ∧ (exclusionScanStep t acc data).2.1 ≤ 0.9 := by
  unfold exclusionScanStep
  dsimp only
  split_ifs with hm hgt
  · have hkpos : (0 : ℚ) < (data.keywords.length : ℚ) := by exact_mod_cast hk
    have hle : ((data.keywords.filter (fun keyword => jsIncludes t keyword)).length : ℚ) ≤
        (data.keywords.length : ℚ) := by
      exact_mod_cast List.length_filter_le _ _
    have hfrac0 : (0 : ℚ) ≤
        ((data.keywords.filter (fun keyword => jsIncludes t keyword)).length : ℚ) /
          (data.keywords.length : ℚ) :=
      div_nonneg (Nat.cast_nonneg _) (Nat.cast_nonneg _)
    have hfrac1 : ((data.keywords.filter (fun keyword => jsIncludes t keyword)).length : ℚ) /
        (data.keywords.length : ℚ) ≤ 1 := (div_le_one hkpos).mpr hle
    constructor
    · exact mul_nonneg hfrac0 hw0
    · calc ((data.keywords.filter (fun keyword => jsIncludes t keyword)).length : ℚ) /
            (data.keywords.length : ℚ) * data.weight
          ≤ 1 * data.weight := by nlinarith
        _ = data.weight := one_mul _
        _ ≤ 0.9 := hw1
  · exact ⟨h0, h1⟩
  · exact ⟨h0, h1⟩

theorem exclusionKeywordScan_score_bounds (t : String) :
    0 ≤ (exclusionKeywordScan t).2.1 ∧ (exclusionKeywordScan t).2.1 ≤ 0.9 := by
  unfold exclusionKeywordScan
  suffices h : ∀ (l : List ExclusionCategory) (acc : List ExclusionDetail × ℚ × Option String),
      (∀ cat ∈ l, 0 ≤ cat.weight ∧ cat.weight ≤ 0.9 ∧ 1 ≤ cat.keywords.length) →
      0 ≤ acc.2.1 → acc.2.1 ≤ 0.9 →
      0 ≤ (l.foldl (exclusionScanStep t) acc).2.1 ∧
        (l.foldl (exclusionScanStep t) acc).2.1 ≤ 0.9 by
    refine h exclusionCategories ([], 0, none) ?_ le_rfl (by norm_num)
    intro cat hcat
    simp only [exclusionCategories, List.mem_cons, List.not_mem_nil, or_false] at hcat
    rcases hcat with h | h | h | h | h | h <;> subst h <;>
      exact ⟨by norm_num, by norm_num, by norm_num⟩
  intro l
  induction l with
  | nil => intro acc _ h0 h1; exact ⟨h0, h1⟩
  | cons x xs ih =>
      intro acc hcat h0 h1
      simp only [List.foldl_cons]
      have hx := hcat x (List.mem_cons_self x xs)
      have hstep := exclusionScanStep_score_bounds t acc x hx.1 hx.2.1 hx.2.2 h0 h1
      exact ih _ (fun c hc => hcat c (List.mem_cons_of_mem x hc)) hstep.1 hstep.2

theorem checkConditionExclusions_confidence_mem (t : String)
    (v1 v2 : Option (List ℝ)) :
    (checkConditionExclusions t v1 v2).confidence ∈ Set.Icc (0 : ℝ) 1 := by
  unfold checkConditionExclusions
  dsimp only
  have hscan := exclusionKeywordScan_score_bounds (jsToLower t)
  have hvec := calculateCosineSimilarity_mem_Icc v1 v2
  have hcast0 : (0 : ℝ) ≤ ((exclusionKeywordScan (jsToLower t)).2.1 : ℝ) := by
    exact_mod_cast hscan.1
  have hcast1 : ((exclusionKeywordScan (jsToLower t)).2.1 : ℝ) ≤ ((0.9 : ℚ) : ℝ) := by
    exact_mod_cast hscan.2
  have h9 : ((0.9 : ℚ) : ℝ) = 0.9 := by norm_num
  split_ifs with he hem hth
  all_goals simp only [Set.mem_Icc]
  · constructor <;> norm_num
  · constructor <;> norm_num
  · constructor
    · calc (0 : ℝ) ≤ ((exclusionKeywordScan (jsToLower t)).2.1 : ℝ) := hcast0
        _ ≤ _ := le_max_left _ _
    · apply max_le
      · linarith [hcast1, h9]
      · have := hvec.2
        nlinarith [hvec.2]
  all_goals
    constructor
    · have hm : max ((exclusionKeywordScan (jsToLower t)).2.1 : ℝ)
          (calculateCosineSimilarity v1 v2 * 0.8) ≤ 0.9 := by
        apply max_le
        · linarith [hcast1, h9]
        · nlinarith [hvec.2]
      linarith
    · have hm0 : (0 : ℝ) ≤ max ((exclusionKeywordScan (jsToLower t)).2.1 : ℝ)
          (calculateCosineSimilarity v1 v2 * 0.8) :=
        le_trans hcast0 (le_max_left _ _)
      linarith

theorem validatePricingCore_confidence_mem (ep : ExtractedPricing) (c : String)
    (amt : ℚ) (pol : Option (ℚ ⊕ String)) :
    (validatePricingCore ep c amt pol).confidence ∈ Set.Icc (0 : ℚ) 1 := by
  unfold validatePricingCore
  dsimp only
  rw [Set.mem_Icc]
  split_ifs <;> constructor <;> norm_num

theorem assessConditionCoverage_score_nonneg (ma : MedicalAnalysis) :
    0 ≤ (assessConditionCoverage ma).score := by
  unfold assessConditionCoverage
  dsimp only
  have hfold : ∀ (l : List CategoryMatch) (acc : ℚ × List String), 0 ≤ acc.1 →
      0 ≤ (l.foldl
        (fun (acc : ℚ × List String) categoryData =>
          match coverageRules.find? (fun r => r.name == categoryData.category) with
          | some rule =>
              if rule.covered then
                (max acc.1 (rule.score * categoryData.relevance),
                 acc.2 ++ [categoryData.category ++ ": " ++ rule.reason])
              else acc
          | none => acc) acc).1 := by
    intro l
    induction l with
    | nil => intro acc h0; exact h0
    | cons x xs ih =>
        intro acc h0
        simp only [List.foldl_cons]
        cases hfind : coverageRules.find? (fun r => r.name == x.category) with
        | none => exact ih _ (by simpa [hfind] using h0)
        | some rule =>
            by_cases hcov : rule.covered
            · refine ih _ ?_
              simp only [hfind, hcov, if_true]
              exact le_trans h0 (le_max_left _ _)
            · refine ih _ ?_
              simp only [hfind, hcov, if_false]
              exact h0
  split_ifs with hhv
  · exact le_trans (hfold ma.categories (0, []) le_rfl) (le_max_left _ _)
  · exact hfold ma.categories (0, []) le_rfl

theorem extractMedicalTerms_confidence_nonneg (t : String) :
    0 ≤ (extractMedicalTerms t).confidence := by
  unfold extractMedicalTerms
  split_ifs with h
  · norm_num
  · dsimp only
    refine le_min (by norm_num) ?_
    positivity

theorem enhancedHospitalMatching_mem_Icc (embed : String → List ℝ)
    (hospitalName : Option String) (hospitalInfo : String)
    (networkEmbedding : Option (List ℝ)) :
    enhancedHospitalMatching embed hospitalName hospitalInfo networkEmbedding ∈
      Set.Icc (0 : ℝ) 1 := by
  unfold enhancedHospitalMatching
  dsimp only
  rw [Set.mem_Icc]
  split_ifs with h
  · constructor <;> norm_num
  · constructor
    · set s := normalizeHospitalName
        (some (((hospitalName.getD "") ++ " " ++ hospitalInfo).trim)) with hs
      have he := exactMatchScoreOf_bounds s
      have hl := locationBonusOf_bounds s
      have he' : (0 : ℝ) ≤ ((exactMatchScoreOf s : ℚ) : ℝ) := by exact_mod_cast he.1
      have hl' : (0 : ℝ) ≤ ((locationBonusOf s : ℚ) : ℝ) := by exact_mod_cast hl.1
      have hmax : (0 : ℝ) ≤ max (max (((exactMatchScoreOf s : ℚ) : ℝ) * 0.4)
          (calculateCosineSimilarity
            (some (embed (((hospitalName.getD "") ++ " " ++ hospitalInfo).trim)))
            networkEmbedding * 0.3)) (((chainMatchScoreOf s : ℚ) : ℝ) * 0.25) := by
        refine le_trans ?_ (le_max_left _ _)
        refine le_trans ?_ (le_max_left _ _)
        nlinarith
      refine le_min ?_ (by norm_num)
      linarith
    · exact min_le_right _ _

theorem enhancedConditionMatching_bounds (embed : String → List ℝ) (t : String)
    (polEmb : Option (List ℝ)) :
    -(0.3 : ℝ) ≤ enhancedConditionMatching embed t polEmb ∧
      enhancedConditionMatching embed t polEmb ≤ 1 := by
  unfold enhancedConditionMatching
  split_ifs with h hem
  · constructor <;> norm_num
  all_goals
    dsimp only
    have hcov : (0 : ℝ) ≤ ((assessConditionCoverage (extractMedicalTerms t)).score : ℝ) := by
      exact_mod_cast assessConditionCoverage_score_nonneg (extractMedicalTerms t)
    have hmed : (0 : ℝ) ≤ ((extractMedicalTerms t).confidence : ℝ) := by
      exact_mod_cast extractMedicalTerms_confidence_nonneg t
    have hvec1 := (calculateCosineSimilarity_mem_Icc (some (embed t)) polEmb).1
    refine ⟨le_min (by nlinarith) (by norm_num), min_le_right _ _⟩

/-! ## C6: score ranges -/

/-- C6 counterexample.  Not every score the engine produces lies in `[0, 1]`:
with condition text matching no taxonomy entry and an embedding provider and
policy embedding whose cosine similarity is `-1`, `enhancedConditionMatching`
returns a negative score (`-0.3`): the final blend is capped above at 1 but
never clamped below at 0. -/
theorem enhancedConditionMatching_negative_example :
    enhancedConditionMatching (fun _ => [(1 : ℝ)]) "zzz" (some [(-1 : ℝ)]) < 0 := by
  have hfold : medicalTerminologyDatabase.foldl (medTermScanStep (jsToLower "zzz"))
      ([], [], 0) = ([], [], 0) := by decide
  have hmed : extractMedicalTerms "zzz" =
      { terms := [], categories := [], confidence := 0, totalMatches := 0 } := by
    rw [extractMedicalTerms]
    rw [if_neg (by decide)]
    dsimp only
    rw [hfold]
    simp [dedupKeepFirst, sortByRelevanceDesc]
  have hassess : (assessConditionCoverage
      { terms := [], categories := [], confidence := 0, totalMatches := 0 }).score = 0 := by
    simp [assessConditionCoverage]
  have hcos : calculateCosineSimilarity (some [(1 : ℝ)]) (some [(-1 : ℝ)]) = -1 := by
    rw [calculateCosineSimilarity]
    norm_num [cosineLoop, cosineStep, Real.sqrt_one]
  have hemg : hasEmergencyPatternIn "zzz" = false := by decide
  rw [enhancedConditionMatching]
  rw [if_neg (by decide)]
  dsimp only
  rw [hmed, hassess, hcos, hemg]
  norm_num

/-- C6 amended.  The exclusion confidence, the pricing confidence and the
hospital-matching score do lie in `[0, 1]` for all inputs, but the
condition-coverage score of `enhancedConditionMatching` only lies in
`[-0.3, 1]`: it is capped above at 1 and can go as low as `-0.3` when the
cosine similarity is negative. -/
theorem engine_score_ranges_amended :
    (∀ (t : String) (v1 v2 : Option (List ℝ)),
      (checkConditionExclusions t v1 v2).confidence ∈ Set.Icc (0 : ℝ) 1) ∧
    (∀ (ep : ExtractedPricing) (c : String) (amt : ℚ) (pol : Option (ℚ ⊕ String)),
      (validatePricingCore ep c amt pol).confidence ∈ Set.Icc (0 : ℚ) 1) ∧
    (∀ (embed : String → List ℝ) (name : Option String) (info : String)
        (net : Option (List ℝ)),
      enhancedHospitalMatching embed name info net ∈ Set.Icc (0 : ℝ) 1) ∧
    (∀ (embed : String → List ℝ) (t : String) (polEmb : Option (List ℝ)),
      enhancedConditionMatching embed t polEmb ∈ Set.Icc (-(0.3 : ℝ)) 1) :=
  ⟨checkConditionExclusions_confidence_mem, validatePricingCore_confidence_mem,
   enhancedHospitalMatching_mem_Icc,
   fun embed t polEmb => Set.mem_Icc.mpr (enhancedConditionMatching_bounds embed t polEmb)⟩

/-! ## C4: the emergency override -/

/-- C4.  For every condition text containing at least one emergency token
(as a substring of the lower-cased text, which is how the source matches),
`checkConditionExclusions` returns `isExcluded = false` with
`confidence = 0.9`, regardless of matched exclusion keywords and of the two
embedding vectors. -/
theorem checkConditionExclusions_emergency_override (text : String)
    (v1 v2 : Option (List ℝ))
    (h : (emergencyKeywords.any fun keyword => jsIncludes (jsToLower text) keyword) = true) :
    (checkConditionExclusions text v1 v2).isExcluded = false ∧
    (checkConditionExclusions text v1 v2).confidence = 0.9 := by
  have htext : ¬ text = "" := by
    intro he
    rw [he] at h
    exact absurd h (by decide)
  rw [checkConditionExclusions, if_neg htext]
  dsimp only
  rw [if_pos h]
  exact ⟨rfl, rfl⟩

/-- C4 witness: the override theorem applied to a concrete emergency text with
missing embeddings. -/
theorem checkConditionExclusions_emergency_override_witness :
    (emergencyKeywords.any fun keyword =>
      jsIncludes (jsToLower "emergency room visit") keyword) = true ∧
    (checkConditionExclusions "emergency room visit" none none).isExcluded = false ∧
    (checkConditionExclusions "emergency room visit" none none).confidence = 0.9 :=
  ⟨by decide, checkConditionExclusions_emergency_override "emergency room visit" none none
    (by decide)⟩
theorem exclusionScanStep_of_no_match (nt : String)
    (acc : List ExclusionDetail × ℚ × Option String) (data : ExclusionCategory)
    (h : data.keywords.filter (fun keyword => jsIncludes nt keyword) = []) :
    exclusionScanStep nt acc data = acc := by
  rw [exclusionScanStep]
  dsimp only
  rw [h]
  simp

theorem cosineLoop_replicate_zero (n : ℕ) :
    cosineLoop (List.replicate n (0 : ℝ)) (List.replicate n 0) = (0, 0, 0) := by
  induction n with
  | zero => simp [cosineLoop]
  | succ k ih =>
      have hstep : cosineStep (0, 0, 0) ((0 : ℝ), (0 : ℝ)) = (0, 0, 0) := by
        simp [cosineStep]
      simp only [cosineLoop, List.replicate_succ, List.zip_cons_cons, List.foldl_cons, hstep]
      simpa [cosineLoop] using ih

theorem cosine_zero_vectors :
    calculateCosineSimilarity (some (List.replicate 768 (0 : ℝ)))
      (some (List.replicate 768 0)) = 0 := by
  rw [calculateCosineSimilarity]
  rw [if_neg (by exact fun h => h rfl)]
  rw [cosineLoop_replicate_zero]
  norm_num

theorem exclusionKeywordScan_cosmetic :
    exclusionKeywordScan (jsToLower "cosmetic liposuction procedure, ₹50,000, City Clinic") =
      ([⟨"cosmetic", ["cosmetic", "liposuction"], 3/10,
        "Cosmetic procedures are typically excluded from health insurance"⟩],
       3/10, some "cosmetic") := by
  have hf1 : (["cosmetic", "plastic surgery", "aesthetic", "beauty", "liposuction", "botox"] :
      List String).filter (fun keyword =>
        jsIncludes (jsToLower "cosmetic liposuction procedure, ₹50,000, City Clinic") keyword) =
      ["cosmetic", "liposuction"] := by decide
  have hstep1 : exclusionScanStep
      (jsToLower "cosmetic liposuction procedure, ₹50,000, City Clinic") ([], 0, none)
      { name := "cosmetic",
        keywords := ["cosmetic", "plastic surgery", "aesthetic", "beauty", "liposuction", "botox"],
        weight := 0.9,
        reason := "Cosmetic procedures are typically excluded from health insurance" } =
      ([⟨"cosmetic", ["cosmetic", "liposuction"], 3/10,
        "Cosmetic procedures are typically excluded from health insurance"⟩],
       3/10, some "cosmetic") := by
    rw [exclusionScanStep]
    dsimp only
    rw [hf1]
    norm_num
  rw [exclusionKeywordScan, exclusionCategories]
  simp only [List.foldl_cons, List.foldl_nil]
  rw [hstep1]
  rw [exclusionScanStep_of_no_match _ _ _ (by decide)]
  rw [exclusionScanStep_of_no_match _ _ _ (by decide)]
  rw [exclusionScanStep_of_no_match _ _ _ (by decide)]
  rw [exclusionScanStep_of_no_match _ _ _ (by decide)]
  rw [exclusionScanStep_of_no_match _ _ _ (by decide)]

theorem checkConditionExclusions_cosmetic_eval :
    checkConditionExclusions "cosmetic liposuction procedure, ₹50,000, City Clinic"
      (some (List.replicate 768 (0 : ℝ))) (some (List.replicate 768 0)) =
    { isExcluded := false, confidence := 0.7,
      reason := "Condition does not match common exclusion patterns",
      details := [⟨"cosmetic", ["cosmetic", "liposuction"], 3/10,
        "Cosmetic procedures are typically excluded from health insurance"⟩] } := by
  have hem : (emergencyKeywords.any fun keyword =>
      jsIncludes (jsToLower "cosmetic liposuction procedure, ₹50,000, City Clinic") keyword) =
      false := by decide
  rw [checkConditionExclusions, if_neg (by decide)]
  dsimp only
  rw [exclusionKeywordScan_cosmetic, cosine_zero_vectors, hem]
  norm_num

/-! ## C9: the cosmetic end-to-end example -/

/-- C9 counterexample.  On the text
"cosmetic liposuction procedure, ₹50,000, City Clinic" with the documented
zero fallback embeddings, the exclusion analysis returns
`isExcluded = false`, not `true`: only two of the six cosmetic keywords match,
so the category score is `(2/6)·0.9 = 0.3`, below the `0.7` threshold. -/
theorem cosmetic_example_not_excluded :
    (checkConditionExclusions "cosmetic liposuction procedure, ₹50,000, City Clinic"
      (some (List.replicate 768 (0 : ℝ))) (some (List.replicate 768 0))).isExcluded = false := by
  rw [checkConditionExclusions_cosmetic_eval]

/-- C9 amended.  On the cosmetic example text with zero fallback embeddings,
the winning exclusion category is "cosmetic" with category score
`(2/6)·0.9 = 0.3`; since `0.3` does not exceed the `0.7` threshold the
analysis returns `isExcluded = false` with confidence `1 - 0.3 = 0.7` (the
claim's expectation that weight `0.9` alone drives `isExcluded = true` does
not hold: the keyword fraction dilutes the weight). -/
theorem cosmetic_example_analysis :
    (checkConditionExclusions "cosmetic liposuction procedure, ₹50,000, City Clinic"
      (some (List.replicate 768 (0 : ℝ))) (some (List.replicate 768 0))).isExcluded = false ∧
    (checkConditionExclusions "cosmetic liposuction procedure, ₹50,000, City Clinic"
      (some (List.replicate 768 (0 : ℝ))) (some (List.replicate 768 0))).confidence = 0.7 ∧
    (exclusionKeywordScan
      (jsToLower "cosmetic liposuction procedure, ₹50,000, City Clinic")).2.1 = 3/10 ∧
    (exclusionKeywordScan
      (jsToLower "cosmetic liposuction procedure, ₹50,000, City Clinic")).2.2 =
      some "cosmetic" := by
  refine ⟨?_, ?_, ?_, ?_⟩
  · rw [checkConditionExclusions_cosmetic_eval]
  · rw [checkConditionExclusions_cosmetic_eval]
  · rw [exclusionKeywordScan_cosmetic]
  · rw [exclusionKeywordScan_cosmetic]

/-! ## C8: the pricing confidence formula -/

/-- C8.  Whenever `validatePricingInformation` returns a result, its
confidence is
`0.4·[hasReasonableTotal] + 0.3·[hasValidProcedures] + 0.2·[hasDocumentedPricing]
+ 0.1·[reasons.length > issues.length]`, with `hasValidProcedures` holding iff
no procedure was validated or the in-range fraction exceeds 0.6, and
`isValid = true` iff `confidence ≥ 0.5` and `issues.length ≤ 2`. -/
theorem validatePricingInformation_confidence_formula
    (pricingText conditionsText : String) (claimAmount : ℚ)
    (policySumInsured : Option (ℚ ⊕ String)) (ep : ExtractedPricing) (v : PricingValidation)
    (hep : extractPricingFromText pricingText = some ep)
    (hv : validatePricingInformation pricingText conditionsText claimAmount policySumInsured =
      Except.ok v) :
    v.confidence =
      0.4 * (if hasReasonableTotal claimAmount then (1 : ℚ) else 0) +
      0.3 * (if hasValidProcedures
          (procedureValidationStats (extractMedicalTerms conditionsText).categories
            ep.procedurePrices).1
          (procedureValidationStats (extractMedicalTerms conditionsText).categories
            ep.procedurePrices).2.1 then (1 : ℚ) else 0) +
      0.2 * (if hasDocumentedPricing ep then (1 : ℚ) else 0) +
      0.1 * (if v.reasons.length > v.issues.length then (1 : ℚ) else 0) ∧
    (v.isValid = true ↔ (v.confidence ≥ 0.5 ∧ v.issues.length ≤ 2)) := by
  rw [validatePricingInformation, hep] at hv
  have hv' : validatePricingCore ep conditionsText claimAmount policySumInsured = v :=
    Except.ok.inj hv
  subst hv'
  rw [validatePricingCore]
  dsimp only
  constructor
  · split_ifs <;> norm_num
  · simp only [decide_eq_true_eq]

theorem pricing_formula_witness_hv :
    validatePricingInformation "x" "" 0 none = Except.ok ⟨false, 3/10, [], []⟩ := by
  rw [validatePricingInformation]
  rw [show extractPricingFromText "x" = some ⟨[], []⟩ from by decide]
  have h1 : extractMedicalTerms "" = ⟨[], [], 0, 0⟩ := by
    rw [extractMedicalTerms, if_pos rfl]
  have h2 : totalAmountChecks 0 none = ([], []) := by
    rw [totalAmountChecks, if_neg (by norm_num)]
  have h3 : procedureValidationStats ([] : List CategoryMatch)
      ([] : List ProcedurePrice) = (0, 0, [], []) := by
    rw [procedureValidationStats]; simp
  simp only [validatePricingCore]
  rw [h1]
  dsimp only
  rw [h2, h3]
  have hA : hasReasonableTotal 0 = false := by norm_num [hasReasonableTotal]
  have hB : hasValidProcedures 0 0 = true := by simp [hasValidProcedures]
  have hC : hasDocumentedPricing ⟨[], []⟩ = false := by simp [hasDocumentedPricing]
  rw [hA, hB, hC]
  norm_num

/-- C8 witness: the confidence-formula theorem applied to the concrete call
`validatePricingInformation "x" "" 0 none`, which returns
`⟨false, 3/10, [], []⟩`. -/
theorem validatePricingInformation_confidence_formula_witness :
    (⟨false, 3/10, [], []⟩ : PricingValidation).confidence =
      0.4 * (if hasReasonableTotal 0 then (1 : ℚ) else 0) +
      0.3 * (if hasValidProcedures
          (procedureValidationStats (extractMedicalTerms "").categories
            (⟨[], []⟩ : ExtractedPricing).procedurePrices).1
          (procedureValidationStats (extractMedicalTerms "").categories
            (⟨[], []⟩ : ExtractedPricing).procedurePrices).2.1 then (1 : ℚ) else 0) +
      0.2 * (if hasDocumentedPricing ⟨[], []⟩ then (1 : ℚ) else 0) +
      0.1 * (if (⟨false, 3/10, [], []⟩ : PricingValidation).reasons.length >
          (⟨false, 3/10, [], []⟩ : PricingValidation).issues.length then (1 : ℚ) else 0) ∧
    ((⟨false, 3/10, [], []⟩ : PricingValidation).isValid = true ↔
      ((⟨false, 3/10, [], []⟩ : PricingValidation).confidence ≥ 0.5 ∧
        (⟨false, 3/10, [], []⟩ : PricingValidation).issues.length ≤ 2)) :=
  validatePricingInformation_confidence_formula "x" "" 0 none ⟨[], []⟩ ⟨false, 3/10, [], []⟩
    (by decide) pricing_formula_witness_hv

/-! ## C3: the analyses are not fail-open -/

/-- C3.  The sub-analyses are not independently fail-open: an empty (or
missing) `pricing_and_date` segment makes `extractPricingFromText` return the
ill-shaped bare array, the pricing validator's next line throws, and the
catch-all of `validateClaimAgainstPolicy` then reports every check as failed
(`policyActive` included), regardless of how the other analyses would have
fared. -/
theorem validateClaim_empty_pricing_all_false
    (embed : String → List ℝ) (segregatedContent : SegregatedContent)
    (hospitalName : Option String) (policyDetails : PolicyDetails)
    (pe : PolicyEmbeddings) (claimAmount : ℚ)
    (h : segregatedContent.pricing_and_date = "") :
    validateClaimAgainstPolicy embed segregatedContent hospitalName policyDetails
      (some pe) claimAmount =
    { withinSumInsured := false, conditionCovered := false, conditionNotExcluded := false,
      pricingMatches := false, hospitalInNetwork := false, policyActive := false,
      validationErrors :=
        ["Validation system error: Cannot read properties of undefined (reading 'length')"],
      overallScore := none, passedChecks := none, totalChecks := none } := by
  have hpv : validatePricingInformation "" segregatedContent.conditions claimAmount none =
      Except.error "Cannot read properties of undefined (reading 'length')" := by
    rw [validatePricingInformation]
    rfl
  have htry : validateClaimAgainstPolicyTry embed segregatedContent hospitalName
      policyDetails (some pe) claimAmount =
      Except.error "Cannot read properties of undefined (reading 'length')" := by
    rw [validateClaimAgainstPolicyTry]
    dsimp only
    rw [h, hpv]
  rw [validateClaimAgainstPolicy, htry]
  rfl

/-- C3 witness: the all-false catch result on a concrete claim whose pricing
segment is empty. -/
theorem validateClaim_empty_pricing_all_false_witness :
    validateClaimAgainstPolicy (fun _ => []) ⟨"", "acute chest pain", "Apollo Hospital"⟩
      (some "Apollo Hospital") ⟨"u@x.com", "GR", "Gold", 2023, 1000000, true, "t"⟩
      (some ⟨[], [], [], []⟩) 50000 =
    { withinSumInsured := false, conditionCovered := false, conditionNotExcluded := false,
      pricingMatches := false, hospitalInNetwork := false, policyActive := false,
      validationErrors :=
        ["Validation system error: Cannot read properties of undefined (reading 'length')"],
      overallScore := none, passedChecks := none, totalChecks := none } :=
  validateClaim_empty_pricing_all_false (fun _ => []) ⟨"", "acute chest pain", "Apollo Hospital"⟩
    (some "Apollo Hospital") ⟨"u@x.com", "GR", "Gold", 2023, 1000000, true, "t"⟩
    ⟨[], [], [], []⟩ 50000 rfl

/-! ## Supporting lemmas: the best-amount selection fold -/

theorem pickFold_no_improve (c : ℝ) (xs : List ℚ) :
    ∀ (b : ℚ) (s : ℝ),
      (∀ x ∈ xs, ¬ (c + Real.logb 10 (max (x : ℝ) 1) > s)) →
      xs.foldl
        (fun (acc : ℚ × ℝ) (amt : ℚ) =>
          if c + Real.logb 10 (max (amt : ℝ) 1) > acc.2
          then (amt, c + Real.logb 10 (max (amt : ℝ) 1)) else acc)
        (b, s) = (b, s) := by
  induction xs with
  | nil => intro b s _; rfl
  | cons x xs ih =>
      intro b s h
      simp only [List.foldl_cons]
      rw [if_neg (h x (List.mem_cons_self x xs))]
      exact ih b s fun y hy => h y (List.mem_cons_of_mem x hy)

theorem pickFold_first_max (c : ℝ) (xs : List ℚ) (m : ℚ) :
    ∀ (b : ℚ) (s : ℝ), m ∈ xs →
      (∀ x ∈ xs, x ≠ m →
        c + Real.logb 10 (max (x : ℝ) 1) < c + Real.logb 10 (max (m : ℝ) 1)) →
      s < c + Real.logb 10 (max (m : ℝ) 1) →
      (xs.foldl
        (fun (acc : ℚ × ℝ) (amt : ℚ) =>
          if c + Real.logb 10 (max (amt : ℝ) 1) > acc.2
          then (amt, c + Real.logb 10 (max (amt : ℝ) 1)) else acc)
        (b, s)).1 = m := by
  induction xs with
  | nil => intro b s hmem _ _; exact absurd hmem (List.not_mem_nil m)
  | cons x xs ih =>
      intro b s hmem hstrict hs
      simp only [List.foldl_cons]
      by_cases hx : x = m
      · subst hx
        rw [if_pos hs]
        rw [pickFold_no_improve c xs x (c + Real.logb 10 (max (x : ℝ) 1)) ?_]
        · intro y hy
          by_cases hy' : y = x
          · subst hy'; exact lt_irrefl _
          · exact not_lt_of_lt (hstrict y (List.mem_cons_of_mem x hy) hy')
      · have hmem' : m ∈ xs := by
          rcases List.mem_cons.1 hmem with h | h
          · exact absurd h.symm hx
          · exact h
        have hstrict' : ∀ y ∈ xs, y ≠ m →
            c + Real.logb 10 (max (y : ℝ) 1) < c + Real.logb 10 (max (m : ℝ) 1) :=
          fun y hy => hstrict y (List.mem_cons_of_mem x hy)
        by_cases hup : c + Real.logb 10 (max (x : ℝ) 1) > s
        · rw [if_pos hup]
          exact ih _ _ hmem' hstrict'
            (hstrict x (List.mem_cons_self x xs) hx)
        · rw [if_neg hup]
          exact ih _ _ hmem' hstrict' hs

/-- C10 amended.  `pickBestClaimAmount` returns 0 when no amount is
extracted; and it returns the maximum extracted amount whenever that maximum
exceeds 1 (the total-keyword bonus is constant across candidates, and
`log10(max(amount,1))` is strictly increasing above 1, so the first strict
improver kept by the loop is the maximum).  When every extracted amount is at
most 1 the tie-broken choice can differ from the maximum. -/
theorem pickBestClaimAmount_max_amended (text : String) :
    (extractAllAmountsINR text = [] → pickBestClaimAmount text = 0) ∧
    (∀ m : ℚ, m ∈ extractAllAmountsINR text →
      (∀ x ∈ extractAllAmountsINR text, x ≤ m) → 1 < m →
      pickBestClaimAmount text = m) := by
  constructor
  · intro he
    rw [pickBestClaimAmount]
    dsimp only
    rw [if_pos he]
  · intro m hmem hmax hm1
    rw [pickBestClaimAmount]
    dsimp only
    have hne : extractAllAmountsINR text ≠ [] := by
      intro he
      rw [he] at hmem
      exact absurd hmem (List.not_mem_nil m)
    rw [if_neg hne]
    set c : ℝ :=
      (((totalKeywords.filter (fun kw => jsIncludes (jsToLower text) kw)).length : ℕ) : ℝ)
      with hc
    have hc0 : (0 : ℝ) ≤ c := Nat.cast_nonneg _
    have hm1R : (1 : ℝ) < (m : ℝ) := by exact_mod_cast hm1
    have hmaxm : max ((m : ℝ)) 1 = (m : ℝ) := max_eq_left (le_of_lt hm1R)
    have hfm : 0 < Real.logb 10 (max ((m : ℝ)) 1) := by
      rw [hmaxm]
      exact Real.logb_pos (by norm_num) hm1R
    have hstrict : ∀ x ∈ extractAllAmountsINR text, x ≠ m →
        c + Real.logb 10 (max ((x : ℝ)) 1) < c + Real.logb 10 (max ((m : ℝ)) 1) := by
      intro x hx hne'
      have hxm : x < m := lt_of_le_of_ne (hmax x hx) hne'
      have hxmR : (x : ℝ) < (m : ℝ) := by exact_mod_cast hxm
      have hlt : max ((x : ℝ)) 1 < max ((m : ℝ)) 1 := by
        rw [hmaxm]
        exact max_lt hxmR hm1R
      have hpos : (0 : ℝ) < max ((x : ℝ)) 1 :=
        lt_of_lt_of_le zero_lt_one (le_max_right _ _)
      have := Real.logb_lt_logb (by norm_num : (1 : ℝ) < 10) hpos hlt
      linarith
    have hinit : (-1 : ℝ) < c + Real.logb 10 (max ((m : ℝ)) 1) := by linarith
    rw [pickFold_first_max c (extractAllAmountsINR text) m 0 (-1) hmem hstrict hinit]
    rw [if_pos (ne_of_gt (lt_trans zero_lt_one hm1))]

theorem amounts_of_point_three_point_five :
    extractAllAmountsINR "0.3 0.5" = [3/10, 1/2] := by
  have h0 : digitsToNat ['0'] = 0 := by decide
  have h3 : digitsToNat ['3'] = 3 := by decide
  have h5 : digitsToNat ['5'] = 5 := by decide
  rw [show extractAllAmountsINR "0.3 0.5" =
      [((digitsToNat ['0'] : ℕ) : ℚ) +
        ((digitsToNat ['3'] : ℕ) : ℚ) / ((10 : ℚ) ^ (['3'] : List Char).length),
       ((digitsToNat ['0'] : ℕ) : ℚ) +
        ((digitsToNat ['5'] : ℕ) : ℚ) / ((10 : ℚ) ^ (['5'] : List Char).length)] from rfl]
  rw [h0, h3, h5]
  norm_num

/-- C10 counterexample.  On the text "0.3 0.5" both extracted amounts are at
most 1, so the per-candidate scores `keywords + log10(max(amount,1))` all
collapse to the same value; the loop keeps the first candidate, and
`pickBestClaimAmount` returns `0.3` even though the maximum extracted amount
is `0.5`. -/
theorem pickBestClaimAmount_not_max :
    extractAllAmountsINR "0.3 0.5" = [3/10, 1/2] ∧
    pickBestClaimAmount "0.3 0.5" = 3/10 ∧ (3/10 : ℚ) < 1/2 := by
  refine ⟨amounts_of_point_three_point_five, ?_, by norm_num⟩
  rw [pickBestClaimAmount]
  dsimp only
  rw [amounts_of_point_three_point_five]
  rw [if_neg (by simp)]
  have hkw : ((totalKeywords.filter
      (fun kw => jsIncludes (jsToLower "0.3 0.5") kw)).length) = 0 := by decide
  rw [hkw]
  simp only [List.foldl_cons, List.foldl_nil]
  have hm1 : max (((3 : ℚ)/10 : ℚ) : ℝ) 1 = 1 := max_eq_right (by push_cast; norm_num)
  have hm2 : max (((1 : ℚ)/2 : ℚ) : ℝ) 1 = 1 := max_eq_right (by push_cast; norm_num)
  rw [hm1, hm2, Real.logb_one]
  norm_num

/-- C10 witness: the amended theorem applied to the text "₹2 ₹5", whose
extracted amounts are `[2, 5]`, picking the maximum `5`. -/
theorem pickBestClaimAmount_max_amended_witness :
    pickBestClaimAmount "₹2 ₹5" = 5 := by
  have hex : extractAllAmountsINR "₹2 ₹5" = [2, 5] := by
    rw [show extractAllAmountsINR "₹2 ₹5" = [((2 : ℕ) : ℚ), ((5 : ℕ) : ℚ)] from rfl]
    norm_num
  exact (pickBestClaimAmount_max_amended "₹2 ₹5").2 5
    (by rw [hex]; simp)
    (by intro x hx; rw [hex] at hx; simp at hx; rcases hx with rfl | rfl <;> norm_num)
    (by norm_num)
